import Mathlib

/-!
# Verification of the Predicta backend core (`src/index.js`)

Shallow embedding of the command normalization / parsing / dispatch engine and
the summary-aggregation and insights pipeline of the Predicta WhatsApp
bookkeeping backend.

Modelling conventions:
* JavaScript numbers are modelled as exact rationals (`ℚ`); a value of `none`
  in `Option ℚ` stands for a non-finite JS number (`NaN` / `±Infinity`).
  Floating-point rounding and overflow are outside the model.
* `Number(string)` conversion is modelled by `jsStringToNumber`, following the
  ECMAScript string-numeric-literal grammar for decimal, hexadecimal, octal and
  binary literals (`none` = the conversion yields a non-finite value, i.e.
  `NaN` or an `Infinity` literal).  Whitespace trimming uses `Char.isWhitespace`.
* Postgres tables are lists of row structures inside a `DB` value; `created_at`
  timestamps are naturals drawn from a monotone per-database clock, so that in
  a race-free sequential run each insert carries a strictly larger timestamp.
* SQL `ORDER BY x DESC` without a secondary key is modelled as a *stable*
  sort (`List.insertionSort`) on the grouped rows: ties keep the storage
  engine's underlying (grouping) order, matching the fact that the query
  specifies no tiebreak.
* Each `pool.query` call of the source consumes one slot of a fault oracle
  (`StoreOracle`); a `false` slot makes the call throw, which the webhook
  handler's `try/catch` turns into the generic apology reply.
-/

/-! ## JS string helpers

Core `String` functions such as `String.trim` and `String.splitOn` are
defined by well-founded recursion on byte positions and do not reduce in the
kernel, so the JS string primitives used by the source are modelled directly
on `List Char`. -/

/-- Drop leading and trailing whitespace (JS `String.prototype.trim`). -/
def trimChars (l : List Char) : List Char :=
  ((l.dropWhile Char.isWhitespace).reverse.dropWhile Char.isWhitespace).reverse

def jsTrim (s : String) : String := String.mk (trimChars s.toList)

/-- JS `String.prototype.toUpperCase` (ASCII range, enough for currency codes). -/
def jsToUpper (s : String) : String := String.mk (s.toList.map Char.toUpper)

/-- JS `String.prototype.toLowerCase` (ASCII range). -/
def jsToLower (s : String) : String := String.mk (s.toList.map Char.toLower)

/-- JS `String.prototype.split(sep)` for a single-character separator:
`"".split(" ") = [""]`, consecutive separators yield empty fields. -/
def splitOnChar (sep : Char) : List Char → List (List Char)
  | [] => [[]]
  | c :: cs =>
    match splitOnChar sep cs with
    | [] => [[]]
    | t :: ts => if c = sep then [] :: t :: ts else (c :: t) :: ts

/-- JS `s.split(" ")` returning strings. -/
def jsSplitSpace (s : String) : List String :=
  (splitOnChar ' ' s.toList).map String.mk

/-- `l` begins with `p` (JS `String.prototype.startsWith` on char lists). -/
def listStartsWith (p l : List Char) : Bool := decide (l.take p.length = p)

def jsStartsWith (s p : String) : Bool := listStartsWith p.toList s.toList

/-- JS `Array.prototype.join(sep)`. -/
def joinSep (sep : String) : List String → String
  | [] => ""
  | [a] => a
  | a :: b :: rest => a ++ sep ++ joinSep sep (b :: rest)

/-! ## JS `Number(string)` conversion -/

def isAsciiDigit (c : Char) : Bool := '0' ≤ c && c ≤ '9'

def isHexDigitCh (c : Char) : Bool :=
  isAsciiDigit c || ('a' ≤ c && c ≤ 'f') || ('A' ≤ c && c ≤ 'F')

def isOctDigit (c : Char) : Bool := '0' ≤ c && c ≤ '7'

def isBinDigit (c : Char) : Bool := c = '0' || c = '1'

def hexVal (c : Char) : Nat :=
  if isAsciiDigit c then c.toNat - '0'.toNat
  else if 'a' ≤ c && c ≤ 'f' then c.toNat - 'a'.toNat + 10
  else c.toNat - 'A'.toNat + 10

def digitsToNat (base : Nat) (cs : List Char) : Nat :=
  cs.foldl (fun n c => base * n + hexVal c) 0

/-- Sign prefix of a decimal literal: returns the sign and the rest. -/
def stripSign : List Char → Int × List Char
  | '+' :: cs => (1, cs)
  | '-' :: cs => (-1, cs)
  | cs => (1, cs)

/-- `StrUnsignedDecimalLiteral` (without `Infinity`): digits, optional
fraction, optional exponent.  `none` = not a valid literal (`NaN`). -/
def parseUnsignedDec (cs : List Char) : Option ℚ :=
  let (ip, r1) := cs.span isAsciiDigit
  let (fp, r2) :=
    match r1 with
    | '.' :: rest => rest.span isAsciiDigit
    | _ => ([], r1)
  if ip.isEmpty && fp.isEmpty then none
  else
    let mant : ℚ := (digitsToNat 10 (ip ++ fp) : ℚ) / ((10 : ℚ) ^ fp.length)
    match r2 with
    | [] => some mant
    | 'e' :: rest =>
        let (es, rest2) := stripSign rest
        let (ed, rest3) := rest2.span isAsciiDigit
        if ed.isEmpty || !rest3.isEmpty then none
        else some (mant * (10 : ℚ) ^ (es * (digitsToNat 10 ed : Int)))
    | 'E' :: rest =>
        let (es, rest2) := stripSign rest
        let (ed, rest3) := rest2.span isAsciiDigit
        if ed.isEmpty || !rest3.isEmpty then none
        else some (mant * (10 : ℚ) ^ (es * (digitsToNat 10 ed : Int)))
    | _ => none

/-- A radix-prefixed integer literal body (after `0x`/`0o`/`0b`). -/
def parseRadix (base : Nat) (isD : Char → Bool) (cs : List Char) : Option ℚ :=
  if cs.isEmpty || !(cs.all isD) then none
  else some (digitsToNat base cs : ℚ)

/-- Signed decimal case of `ToNumber` on a trimmed nonempty string;
`Infinity` is non-finite, hence `none` in this model. -/
def parseSignedDec (t : List Char) : Option ℚ :=
  let (sgn, u) := stripSign t
  if u = "Infinity".toList then none
  else (parseUnsignedDec u).map (fun q => (sgn : ℚ) * q)

/-- ECMAScript `ToNumber` on strings, restricted to finite results:
`none` models `NaN` and `±Infinity` (both fail `Number.isFinite`).
The empty (or all-whitespace) string converts to `0`. -/
def jsStringToNumber (s : String) : Option ℚ :=
  let t := trimChars s.toList
  match t with
  | [] => some 0
  | '0' :: 'x' :: rest => parseRadix 16 isHexDigitCh rest
  | '0' :: 'X' :: rest => parseRadix 16 isHexDigitCh rest
  | '0' :: 'o' :: rest => parseRadix 8 isOctDigit rest
  | '0' :: 'O' :: rest => parseRadix 8 isOctDigit rest
  | '0' :: 'b' :: rest => parseRadix 2 isBinDigit rest
  | '0' :: 'B' :: rest => parseRadix 2 isBinDigit rest
  | _ => parseSignedDec t

/-- `Number(x)` where `x` may be `undefined` (→ `NaN`). -/
def jsNumberOfOpt : Option String → Option ℚ
  | none => none
  | some s => jsStringToNumber s

/-! ## Amount/currency parser (`src/index.js` lines 62–92) -/

/-- `SYMBOL_TO_CODE = { "£": "GBP", "$": "USD", "₦": "NGN" }` -/
def SYMBOL_TO_CODE (c : Char) : Option String :=
  if c = '£' then some "GBP"
  else if c = '$' then some "USD"
  else if c = '₦' then some "NGN"
  else none

/-- `CODE_SET = new Set(["GBP", "USD", "NGN"])` -/
def CODE_SET : List String := ["GBP", "USD", "NGN"]

/-- `String(token || "").replace(/,/g, "").trim()`; `none` models an absent
(`undefined`) token. -/
def normalizeAmountToken (token : Option String) : String :=
  String.mk (trimChars ((token.getD "").toList.filter (fun c => c ≠ ',')))

structure ParsedAmount where
  amount : ℚ
  currency : String
deriving Repr, DecidableEq

deriving instance DecidableEq for Except

/-- `parseAmountAndCurrency(rawAmountToken, maybeCurrencyToken, defaultCurrency)`.
`Except.error` carries the `"Invalid amount format."` message of the source. -/
def parseAmountAndCurrency (rawAmountToken maybeCurrencyToken : Option String)
    (defaultCurrency : String) : Except String ParsedAmount :=
  let amtToken := normalizeAmountToken rawAmountToken
  match amtToken.toList with
  | [] => .error "Invalid amount format."
  | firstChar :: restChars =>
    match SYMBOL_TO_CODE firstChar with
    | some currency =>
        match jsStringToNumber (String.mk restChars) with
        | none => .error "Invalid amount format."
        | some amount => .ok ⟨amount, currency⟩
    | none =>
        let maybeCode := jsToUpper (normalizeAmountToken maybeCurrencyToken)
        if maybeCode ≠ "" ∧ maybeCode ∈ CODE_SET then
          match jsStringToNumber amtToken with
          | none => .error "Invalid amount format."
          | some amount => .ok ⟨amount, maybeCode⟩
        else
          match jsStringToNumber amtToken with
          | none => .error "Invalid amount format."
          | some amount =>
              .ok ⟨amount, if defaultCurrency = "" then "NGN" else defaultCurrency⟩

unseal Rat.mul Rat.inv Rat.add Rat.sub Rat.ofScientific in
example : jsStringToNumber "45000" = some 45000 := by decide

unseal Rat.mul Rat.inv Rat.add Rat.sub Rat.ofScientific in
example : jsStringToNumber "" = some 0 := by decide

example : jsStringToNumber "abc" = none := by decide

unseal Rat.mul Rat.inv Rat.add Rat.sub Rat.ofScientific in
example : jsStringToNumber "2.5" = some (5/2) := by decide

unseal Rat.mul Rat.inv Rat.add Rat.sub Rat.ofScientific in
example : jsStringToNumber "-45" = some (-45) := by decide

unseal Rat.mul Rat.inv Rat.add Rat.sub Rat.ofScientific in
example : jsStringToNumber "0x10" = some 16 := by decide

unseal Rat.mul Rat.inv Rat.add Rat.sub Rat.ofScientific in
example : jsStringToNumber "1e3" = some 1000 := by decide

example : jsStringToNumber "Infinity" = none := by decide

unseal Rat.mul Rat.inv Rat.add Rat.sub Rat.ofScientific in
example : parseAmountAndCurrency (some "₦45000") none "GBP" = .ok ⟨45000, "NGN"⟩ := by decide

unseal Rat.mul Rat.inv Rat.add Rat.sub Rat.ofScientific in
example : parseAmountAndCurrency (some "45") (some "GBP") "NGN" = .ok ⟨45, "GBP"⟩ := by decide

unseal Rat.mul Rat.inv Rat.add Rat.sub Rat.ofScientific in
example : parseAmountAndCurrency (some "45") none "NGN" = .ok ⟨45, "NGN"⟩ := by decide

example : parseAmountAndCurrency (some "abc") none "NGN" = .error "Invalid amount format." := by decide

unseal Rat.mul Rat.inv Rat.add Rat.sub Rat.ofScientific in
example : parseAmountAndCurrency (some "₦") none "NGN" = .ok ⟨0, "NGN"⟩ := by decide

/-! ## Owner profiles and help text (`src/index.js` lines 55–118) -/

structure OwnerProfile where
  businessName : String
  defaultCurrency : String
deriving Repr, DecidableEq

def OWNER_PROFILES : List (String × OwnerProfile) :=
  [("whatsapp:+447425524117", ⟨"Gabriel Demo Business", "GBP"⟩)]

def getOwnerProfile (sender : String) : OwnerProfile :=
  ((OWNER_PROFILES.find? (fun p => p.1 = sender)).map Prod.snd).getD
    ⟨"Your Business", "NGN"⟩

def helpText (businessName : String) : String :=
  "🆕 PREDICTA BUILD: NL-PARSER-V1\n\n" ++
  "Predicta (" ++ businessName ++ ") commands:\n" ++
  "1) sale <item> <qty> <amount>[currency]\n" ++
  "   e.g. sale rice 3 ₦45000 | sale rice 3 45 GBP | sale rice 3 £45\n" ++
  "2) expense <category> <amount>[currency]\n" ++
  "   e.g. expense fuel ₦15000 | expense ads $30 | expense rent 500 GBP\n" ++
  "3) stock <item> <qty>\n" ++
  "   e.g. stock rice 20\n" ++
  "   also: add stock <item> <qty> | remove stock <item> <qty>\n" ++
  "4) summary [today|week|month]\n" ++
  "5) advice [today|week|month]\n" ++
  "6) help\n\n" ++
  "Natural language also works:\n" ++
  "• Sold 3 bin for 400 gbp\n" ++
  "• Spent £30 on fuel\n" ++
  "• Add stock bin 10\n" ++
  "• Remove stock bin 5"

/-! ## Natural-language normalizer (`src/index.js` lines 471–537)

The input is first trimmed and internal whitespace runs are collapsed to
single spaces (`String(raw || "").trim().replace(/\s+/g, " ")`), so on the
collapsed string every `\s+` in the rewrite regexes matches exactly one
space and the regexes can be modelled token-wise.  A lazy group `(.+?)`
followed by `\s+kw\s+` matches the *shortest* token prefix followed by the
(case-insensitively matched) keyword token with a nonempty remainder. -/

/-- `replace(/\s+/g, " ")`: collapse every whitespace run to one space. -/
def squishWs : List Char → List Char
  | [] => []
  | [c] => if c.isWhitespace then [' '] else [c]
  | c :: d :: cs =>
    if c.isWhitespace then
      if d.isWhitespace then squishWs (d :: cs) else ' ' :: squishWs (d :: cs)
    else c :: squishWs (d :: cs)

/-- `String(raw || "").trim().replace(/\s+/g, " ")` -/
def collapseWs (raw : String) : String := String.mk (squishWs (trimChars raw.toList))

/-- A nonempty all-ASCII-digit token (`(\d+)`). -/
def allDigits (t : String) : Bool := !t.toList.isEmpty && t.toList.all isAsciiDigit

/-- Lazy split of a token list at keyword `kw` (matched case-insensitively):
finds the shortest nonempty prefix followed by the token `kw` and a
nonempty remainder, as the regex `(.+?)\s+kw\s+(.+)$` does on a
space-collapsed string. -/
def splitAtKw (kw : String) : List String → Option (List String × List String)
  | [] => none
  | [_] => none
  | x :: y :: rest =>
    if jsToLower y = kw ∧ rest ≠ [] then some ([x], rest)
    else
      match splitAtKw kw (y :: rest) with
      | some (item, tail) => some (x :: item, tail)
      | none => none

/-- `m[2].trim().replace(/\s+/g, "_")` on an already-collapsed group:
join the phrase tokens with underscores. -/
def underscoreJoin (toks : List String) : String := joinSep "_" toks

/-- The optional trailing `${currencyToken ? " " + currencyToken : ""}`. -/
def optCurrencySuffix (t : Option String) : String :=
  match t with
  | some c => if c = "" then "" else " " ++ c
  | none => ""

/-- `/^sold\s+(\d+)\s+(.+?)\s+for\s+(.+)$/i` rewrite. -/
def matchSold (toks : List String) : Option String :=
  match toks with
  | t0 :: t1 :: rest =>
    if jsToLower t0 = "sold" ∧ allDigits t1 then
      match splitAtKw "for" rest with
      | some (itemToks, tailToks) =>
          let item := underscoreJoin itemToks
          let amountToken := tailToks.headD ""
          let currencyToken := (tailToks.drop 1).head?
          some ("sale " ++ item ++ " " ++ t1 ++ " " ++ amountToken ++
            optCurrencySuffix currencyToken)
      | none => none
    else none
  | _ => none

/-- `/^spent\s+(.+?)\s+on\s+(.+)$/i` rewrite. -/
def matchSpent (toks : List String) : Option String :=
  match toks with
  | t0 :: rest =>
    if jsToLower t0 = "spent" then
      match splitAtKw "on" rest with
      | some (amountToks, catToks) =>
          let category := underscoreJoin catToks
          let amountToken := amountToks.headD ""
          let currencyToken := (amountToks.drop 1).head?
          some ("expense " ++ category ++ " " ++ amountToken ++
            optCurrencySuffix currencyToken)
      | none => none
    else none
  | _ => none

/-- `/^add\s+stock\s+(.+?)\s+(\d+)$/i` rewrite: the lazy item group forces
the quantity group `(\d+)$` onto exactly the final token. -/
def matchAddStock (toks : List String) : Option String :=
  match toks with
  | t0 :: t1 :: rest =>
    if jsToLower t0 = "add" ∧ jsToLower t1 = "stock" ∧ 2 ≤ rest.length ∧
        allDigits (rest.getLastD "") then
      some ("stockadd " ++ underscoreJoin rest.dropLast ++ " " ++ rest.getLastD "")
    else none
  | _ => none

/-- `/^remove\s+stock\s+(.+?)\s+(\d+)$/i` rewrite. -/
def matchRemoveStock (toks : List String) : Option String :=
  match toks with
  | t0 :: t1 :: rest =>
    if jsToLower t0 = "remove" ∧ jsToLower t1 = "stock" ∧ 2 ≤ rest.length ∧
        allDigits (rest.getLastD "") then
      some ("stockremove " ++ underscoreJoin rest.dropLast ++ " " ++ rest.getLastD "")
    else none
  | _ => none

/-- `normalizeIncomingNL(raw)`: ordered rewrite rules, first match wins. -/
def normalizeIncomingNL (raw : String) : String :=
  let s := collapseWs raw
  let lower := jsToLower s
  if jsStartsWith lower "summary" then s
  else if jsStartsWith lower "advice" then s
  else if lower = "help" then "help"
  else
    let toks := jsSplitSpace s
    match matchSold toks with
    | some r => r
    | none =>
      match matchSpent toks with
      | some r => r
      | none =>
        match matchAddStock toks with
        | some r => r
        | none =>
          match matchRemoveStock toks with
          | some r => r
          | none => s

/-- `unTokenizeItem(token)`: underscores back to spaces, then trim. -/
def unTokenizeItem (token : String) : String :=
  String.mk (trimChars (token.toList.map (fun c => if c = '_' then ' ' else c)))

example : normalizeIncomingNL "Sold 3 bin for 400 gbp" = "sale bin 3 400 gbp" := by decide
example : normalizeIncomingNL "Spent £30 on fuel" = "expense fuel £30" := by decide
example : normalizeIncomingNL "Add stock bin 10" = "stockadd bin 10" := by decide
example : normalizeIncomingNL "Remove stock bin 5" = "stockremove bin 5" := by decide
example : normalizeIncomingNL "Summary week" = "Summary week" := by decide
example : normalizeIncomingNL "HELP" = "help" := by decide
example : normalizeIncomingNL "Sold 2 blue bin for £45" = "sale blue_bin 2 £45" := by decide
example : normalizeIncomingNL "sale rice 3 ₦45000" = "sale rice 3 ₦45000" := by decide
example : normalizeIncomingNL "Spent 30 gbp on fuel" = "expense fuel 30 gbp" := by decide

/-! ## Rendering numbers in reply strings

JS renders numbers in template strings with `Number.prototype.toString`;
here rationals are rendered exactly (integers without, other values with a
`/`).  No claim depends on the decimal rendering of a number, only on which
reply is produced.  The digit loop is fuelled to keep it structural (and
hence kernel-reducible). -/

def digitChar (n : Nat) : Char := Char.ofNat ('0'.toNat + n)

def natToStrAux : Nat → Nat → List Char
  | 0, _ => []
  | fuel + 1, n =>
    if n < 10 then [digitChar n]
    else natToStrAux fuel (n / 10) ++ [digitChar (n % 10)]

def natToStr (n : Nat) : String := String.mk (natToStrAux (n + 1) n)

def intToStr (i : Int) : String :=
  if i < 0 then "-" ++ natToStr i.natAbs else natToStr i.natAbs

def ratToStr (q : ℚ) : String :=
  if q.den = 1 then intToStr q.num else intToStr q.num ++ "/" ++ natToStr q.den

/-- Rendering of a JS number that may be non-finite. -/
def jsNumToStr : Option ℚ → String
  | some q => ratToStr q
  | none => "NaN"

/-! ## Storage model (`businesses`, `sales`, `expenses`, `stock_events`)

Tables as created by `POST /admin/init-db`.  `created_at` timestamps come
from a strictly monotone per-database clock (`DB.clock`), which models
`created_at DEFAULT NOW()` for a race-free sequential run.  A stored
quantity of `none` stands for a non-finite number (never produced by the
write paths, but `getLatestStockQty` guards against it). -/

structure BusinessRow where
  id : Nat
  business_name : String
  whatsapp_from : String
  default_currency : String
deriving Repr, DecidableEq

structure SaleRow where
  business_id : Nat
  item : String
  quantity : ℚ
  amount : ℚ
  currency : String
  created_at : Nat
deriving Repr, DecidableEq

structure ExpenseRow where
  business_id : Nat
  category : String
  amount : ℚ
  currency : String
  created_at : Nat
deriving Repr, DecidableEq

structure StockRow where
  business_id : Nat
  item : String
  quantity : Option ℚ
  created_at : Nat
deriving Repr, DecidableEq

structure DB where
  businesses : List BusinessRow
  sales : List SaleRow
  expenses : List ExpenseRow
  stock_events : List StockRow
  nextId : Nat
  clock : Nat
deriving Repr, DecidableEq

def DB.empty : DB := ⟨[], [], [], [], 1, 0⟩

def findBusiness (db : DB) (wfrom : String) : Option BusinessRow :=
  db.businesses.find? (fun b => b.whatsapp_from = wfrom)

/-- `INSERT INTO sales ...` -/
def insertSaleDB (db : DB) (bid : Nat) (item : String) (quantity amount : ℚ)
    (currency : String) : DB :=
  { db with
      sales := db.sales ++ [⟨bid, item, quantity, amount, currency, db.clock⟩],
      clock := db.clock + 1 }

/-- `INSERT INTO expenses ...` -/
def insertExpenseDB (db : DB) (bid : Nat) (category : String) (amount : ℚ)
    (currency : String) : DB :=
  { db with
      expenses := db.expenses ++ [⟨bid, category, amount, currency, db.clock⟩],
      clock := db.clock + 1 }

/-- `INSERT INTO stock_events ...` -/
def insertStockEventDB (db : DB) (bid : Nat) (item : String) (quantity : ℚ) : DB :=
  { db with
      stock_events := db.stock_events ++ [⟨bid, item, some quantity, db.clock⟩],
      clock := db.clock + 1 }

/-- `ORDER BY created_at DESC LIMIT 1` over a row list: the first row
carrying the maximal timestamp (the tiebreak among equal timestamps is
unspecified in SQL; race-free runs have distinct timestamps). -/
def latestRow (rows : List StockRow) : Option StockRow :=
  rows.foldl
    (fun acc r =>
      match acc with
      | none => some r
      | some c => if c.created_at < r.created_at then some r else some c)
    none

def stockRowsFor (db : DB) (bid : Nat) (item : String) : List StockRow :=
  db.stock_events.filter (fun e => e.business_id = bid ∧ e.item = item)

/-- `getLatestStockQty(businessId, item)` (`src/index.js` lines 162–176):
0 when no rows exist, and 0 when the stored quantity is not finite. -/
def getLatestStockQty (db : DB) (bid : Nat) (item : String) : ℚ :=
  match latestRow (stockRowsFor db bid item) with
  | none => 0
  | some r => r.quantity.getD 0

/-! ## Store calls with fault injection

Each `pool.query(...)` of the source consumes one slot of a fault oracle;
a `false` slot makes the call throw.  The error value carries the database
and call counter at the failure point (a failing SQL statement writes
nothing). -/

def StoreOracle : Type := Nat → Bool

def SM (α : Type) : Type := StoreOracle → DB → Nat → Except (DB × Nat) (α × DB × Nat)

def SM.pure {α : Type} (a : α) : SM α := fun _ db k => .ok (a, db, k)

def SM.bind {α β : Type} (m : SM α) (f : α → SM β) : SM β := fun or db k =>
  match m or db k with
  | .error e => .error e
  | .ok (a, db', k') => f a or db' k'

instance : Monad SM where
  pure := SM.pure
  bind := SM.bind

/-- One awaited `pool.query(...)` call. -/
def query {α : Type} (f : DB → α × DB) : SM α := fun or db k =>
  if or k then
    let (a, db') := f db
    .ok (a, db', k + 1)
  else .error (db, k + 1)

/-- `getOrCreateBusinessId(whatsappFrom, businessName, defaultCurrency)`:
`SELECT` then, for an unseen sender, `INSERT ... RETURNING id`. -/
def getOrCreateBusinessId (wfrom businessName defaultCurrency : String) : SM Nat := do
  let existing ← query (fun db => (findBusiness db wfrom, db))
  match existing with
  | some b => SM.pure b.id
  | none =>
      query (fun db =>
        (db.nextId,
          { db with
            businesses := db.businesses ++
              [⟨db.nextId, businessName, wfrom,
                if defaultCurrency = "" then "NGN" else defaultCurrency⟩],
            nextId := db.nextId + 1 }))

def insertSale (bid : Nat) (item : String) (quantity amount : ℚ)
    (currency : String) : SM Unit :=
  query (fun db => ((), insertSaleDB db bid item quantity amount currency))

def insertExpense (bid : Nat) (category : String) (amount : ℚ)
    (currency : String) : SM Unit :=
  query (fun db => ((), insertExpenseDB db bid category amount currency))

def insertStockEvent (bid : Nat) (item : String) (quantity : ℚ) : SM Unit :=
  query (fun db => ((), insertStockEventDB db bid item quantity))

def getLatestStockQtyM (bid : Nat) (item : String) : SM ℚ :=
  query (fun db => (getLatestStockQty db bid item, db))

/-! ## Summary aggregation (`src/index.js` lines 301–402, 930–1079)

`GROUP BY` is modelled by grouping on the first occurrence of each key;
`ORDER BY x DESC` without a secondary sort key is modelled as a *stable*
merge sort on the grouped rows (the query specifies no tiebreak, so ties
keep the underlying order). -/

def dedupFirst {α : Type} [DecidableEq α] (l : List α) : List α :=
  l.foldl (fun acc x => if x ∈ acc then acc else acc ++ [x]) []

structure CurrencyTotalRow where
  currency : String
  total_amount : ℚ
  total_qty : ℚ
deriving Repr, DecidableEq

structure ExpenseTotalRow where
  currency : String
  total_amount : ℚ
deriving Repr, DecidableEq

structure TopProductRow where
  item : String
  currency : String
  revenue : ℚ
  qty : ℚ
deriving Repr, DecidableEq

structure TopExpenseRow where
  category : String
  currency : String
  total : ℚ
deriving Repr, DecidableEq

structure StockSnapRow where
  item : String
  quantity : Option ℚ
  created_at : Nat
deriving Repr, DecidableEq

/-- Lexicographic comparison of char lists (model of the storage engine's
text ordering, used only for `ORDER BY item`). -/
def charListLt : List Char → List Char → Bool
  | [], [] => false
  | [], _ :: _ => true
  | _ :: _, [] => false
  | a :: as, b :: bs => if a < b then true else if b < a then false else charListLt as bs

def strLeB (a b : String) : Bool := !charListLt b.toList a.toList

def salesInWindow (db : DB) (bid : Nat) (since : Nat) : List SaleRow :=
  db.sales.filter (fun s => s.business_id = bid ∧ since ≤ s.created_at)

def expensesInWindow (db : DB) (bid : Nat) (since : Nat) : List ExpenseRow :=
  db.expenses.filter (fun e => e.business_id = bid ∧ since ≤ e.created_at)

/-- `SELECT currency, SUM(amount), SUM(quantity) FROM sales ... GROUP BY
currency ORDER BY total_amount DESC` -/
def salesTotalsQ (db : DB) (bid : Nat) (since : Nat) : List CurrencyTotalRow :=
  let rows := salesInWindow db bid since
  let grouped := (dedupFirst (rows.map (fun s => s.currency))).map (fun c =>
    let cs := rows.filter (fun s => s.currency = c)
    CurrencyTotalRow.mk c ((cs.map (fun s => s.amount)).sum)
      ((cs.map (fun s => s.quantity)).sum))
  grouped.insertionSort (fun a b => b.total_amount ≤ a.total_amount)

/-- `SELECT currency, SUM(amount) FROM expenses ... GROUP BY currency
ORDER BY total_amount DESC` -/
def expenseTotalsQ (db : DB) (bid : Nat) (since : Nat) : List ExpenseTotalRow :=
  let rows := expensesInWindow db bid since
  let grouped := (dedupFirst (rows.map (fun e => e.currency))).map (fun c =>
    let cs := rows.filter (fun e => e.currency = c)
    ExpenseTotalRow.mk c ((cs.map (fun e => e.amount)).sum))
  grouped.insertionSort (fun a b => b.total_amount ≤ a.total_amount)

/-- `SELECT item, currency, SUM(amount) AS revenue, SUM(quantity) AS qty
FROM sales ... GROUP BY item, currency ORDER BY revenue DESC LIMIT lim`
(`lim` is 3 in the chat path and 5 in the admin report; the `ORDER BY` has
no secondary key). -/
def topProductsQ (db : DB) (bid : Nat) (since : Nat) (lim : Nat) : List TopProductRow :=
  let rows := salesInWindow db bid since
  let keys := dedupFirst (rows.map (fun s => (s.item, s.currency)))
  let grouped := keys.map (fun k =>
    let cs := rows.filter (fun s => s.item = k.1 ∧ s.currency = k.2)
    TopProductRow.mk k.1 k.2 ((cs.map (fun s => s.amount)).sum)
      ((cs.map (fun s => s.quantity)).sum))
  (grouped.insertionSort (fun a b => b.revenue ≤ a.revenue)).take lim

/-- `SELECT category, currency, SUM(amount) AS total FROM expenses ...
GROUP BY category, currency ORDER BY total DESC LIMIT lim` -/
def topExpenseCategoriesQ (db : DB) (bid : Nat) (since : Nat) (lim : Nat) :
    List TopExpenseRow :=
  let rows := expensesInWindow db bid since
  let keys := dedupFirst (rows.map (fun e => (e.category, e.currency)))
  let grouped := keys.map (fun k =>
    let cs := rows.filter (fun e => e.category = k.1 ∧ e.currency = k.2)
    TopExpenseRow.mk k.1 k.2 ((cs.map (fun e => e.amount)).sum))
  (grouped.insertionSort (fun a b => b.total ≤ a.total)).take lim

/-- `SELECT DISTINCT ON (item) item, quantity, created_at FROM stock_events
WHERE business_id = $1 ORDER BY item, created_at DESC` — the whole event
history of the business, with **no** `created_at` window. -/
def stockSnapshotQ (db : DB) (bid : Nat) : List StockSnapRow :=
  let rows := db.stock_events.filter (fun e => e.business_id = bid)
  let items := (dedupFirst (rows.map (fun e => e.item))).insertionSort
    (fun a b => strLeB a b = true)
  items.filterMap (fun it =>
    (latestRow (rows.filter (fun e => e.item = it))).map
      (fun r => StockSnapRow.mk it r.quantity r.created_at))

/-! ## Net-by-currency and the summary value -/

/-- JS object assignment `m[k] = v`: overwrite in place or append. -/
def objSet (m : List (String × ℚ)) (k : String) (v : ℚ) : List (String × ℚ) :=
  if m.any (fun p => p.1 = k) then m.map (fun p => if p.1 = k then (k, v) else p)
  else m ++ [(k, v)]

/-- JS object read `m[k]` (`none` = `undefined`): the value at the first
(and, for objects, only) occurrence of the key. -/
def objGet : List (String × ℚ) → String → Option ℚ
  | [], _ => none
  | p :: m, k => if p.1 = k then some p.2 else objGet m k

/-- `for (const r of rows) map[r.currency] = Number(r.total_amount)` -/
def buildAmountMap (rows : List (String × ℚ)) : List (String × ℚ) :=
  rows.foldl (fun m r => objSet m r.1 r.2) []

/-- The net computation shared verbatim by `getBusinessSummary`
(`src/index.js` lines 382–390) and `GET /admin/summary` (lines 970–978):
`new Set([...keys(salesMap), ...keys(expMap)])`, then
`net[c] = (salesMap[c] || 0) - (expMap[c] || 0)`. -/
def netByCurrencyOf (salesRows expRows : List (String × ℚ)) : List (String × ℚ) :=
  let salesMap := buildAmountMap salesRows
  let expMap := buildAmountMap expRows
  let currencies := dedupFirst (salesMap.map Prod.fst ++ expMap.map Prod.fst)
  currencies.map (fun c => (c, (objGet salesMap c).getD 0 - (objGet expMap c).getD 0))

/-- `periodToInterval(period)` (`src/index.js` lines 301–306). -/
def periodToInterval (period : String) : String :=
  let p := jsToLower (if period = "" then "today" else period)
  if p = "week" ∨ p = "7d" then "7 days"
  else if p = "month" ∨ p = "30d" then "30 days"
  else "1 day"

/-- Length in days of an interval string, for the window arithmetic of
`created_at >= NOW() - INTERVAL '...'` (time is measured in days). -/
def intervalDays (intervalSql : String) : Nat :=
  if intervalSql = "7 days" then 7
  else if intervalSql = "30 days" then 30
  else 1

structure InternalTotals where
  salesTotals : List CurrencyTotalRow
  expenseTotals : List ExpenseTotalRow
  netByCurrency : List (String × ℚ)
deriving Repr, DecidableEq

structure InternalInsights where
  topProductsByRevenue : List TopProductRow
  topExpenseCategories : List TopExpenseRow
  stockSnapshot : List StockSnapRow
deriving Repr, DecidableEq

structure InternalSummary where
  intervalSql : String
  business : Option BusinessRow
  totals : InternalTotals
  insights : InternalInsights
deriving Repr, DecidableEq

/-- `getBusinessSummary(businessId, period)` (`src/index.js` lines 313–402)
as a pure function of the database contents and the current time `now`. -/
def getBusinessSummary (db : DB) (businessId : Nat) (period : String) (now : Nat) :
    InternalSummary :=
  let intervalSql := periodToInterval period
  let since := now - intervalDays intervalSql
  let businessInfo := db.businesses.find? (fun b => b.id = businessId)
  let salesTotals := salesTotalsQ db businessId since
  let expenseTotals := expenseTotalsQ db businessId since
  let netByCurrency := netByCurrencyOf
    (salesTotals.map (fun r => (r.currency, r.total_amount)))
    (expenseTotals.map (fun r => (r.currency, r.total_amount)))
  InternalSummary.mk intervalSql businessInfo
    (InternalTotals.mk salesTotals expenseTotals netByCurrency)
    (InternalInsights.mk (topProductsQ db businessId since 3)
      (topExpenseCategoriesQ db businessId since 3)
      (stockSnapshotQ db businessId))

/-! ## Admin-shaped summary and insights (`src/index.js` lines 181–296) -/

structure AdminStockRow where
  item : String
  quantity : Option ℚ
  last_updated : Nat
deriving Repr, DecidableEq

structure AdminTotals where
  sales_by_currency : List CurrencyTotalRow
  expenses_by_currency : List ExpenseTotalRow
  net_by_currency : List (String × ℚ)
deriving Repr, DecidableEq

structure AdminInsights where
  top_products_by_revenue : List TopProductRow
  top_expense_categories : List TopExpenseRow
  stock_snapshot : List AdminStockRow
deriving Repr, DecidableEq

structure AdminSummary where
  period : String
  business : Option BusinessRow
  totals : AdminTotals
  insights : AdminInsights
deriving Repr, DecidableEq

/-- `adaptInternalSummaryToAdminShape(internalSummary, period)`
(the `Number(...)` row conversions are identities in this model). -/
def adaptInternalSummaryToAdminShape (s : InternalSummary) (period : String) :
    AdminSummary :=
  AdminSummary.mk (jsToLower (if period = "" then "today" else period)) s.business
    (AdminTotals.mk s.totals.salesTotals s.totals.expenseTotals s.totals.netByCurrency)
    (AdminInsights.mk s.insights.topProductsByRevenue s.insights.topExpenseCategories
      (s.insights.stockSnapshot.map (fun r => AdminStockRow.mk r.item r.quantity r.created_at)))

/-- The summary computed by `GET /admin/summary` (`src/index.js` lines
930–1079) as a pure function of the database and the current time: the same
queries as `getBusinessSummary` but with `LIMIT 5` on both rankings.  (The
endpoint's separate `top_products_by_qty` list is consumed by no core
component and is omitted.) -/
def adminSummaryQ (db : DB) (businessId : Nat) (period : String) (now : Nat) :
    AdminSummary :=
  let p := jsToLower (if period = "" then "today" else period)
  let intervalSql :=
    if p = "week" ∨ p = "7d" then "7 days"
    else if p = "month" ∨ p = "30d" then "30 days"
    else "1 day"
  let since := now - intervalDays intervalSql
  let salesTotals := salesTotalsQ db businessId since
  let expenseTotals := expenseTotalsQ db businessId since
  let netByCurrency := netByCurrencyOf
    (salesTotals.map (fun r => (r.currency, r.total_amount)))
    (expenseTotals.map (fun r => (r.currency, r.total_amount)))
  AdminSummary.mk p (db.businesses.find? (fun b => b.id = businessId))
    (AdminTotals.mk salesTotals expenseTotals netByCurrency)
    (AdminInsights.mk (topProductsQ db businessId since 5)
      (topExpenseCategoriesQ db businessId since 5)
      ((stockSnapshotQ db businessId).map
        (fun r => AdminStockRow.mk r.item r.quantity r.created_at)))

/-- `safeNum(n)`: a non-finite number counts as 0. -/
def safeNum (n : Option ℚ) : ℚ := n.getD 0

/-- `computeInsightsFromSummary(summary)` (`src/index.js` lines 186–229):
ordered rule list, capped at 6 tips by the final `slice(0, 6)`. -/
def computeInsightsFromSummary (s : AdminSummary) : List String :=
  let salesArr := s.totals.sales_by_currency
  let expArr := s.totals.expenses_by_currency
  let topProducts := s.insights.top_products_by_revenue
  let stockSnap := s.insights.stock_snapshot
  let totalSalesAll := (salesArr.map (fun r => r.total_amount)).sum
  let tipsSales :=
    if totalSalesAll ≤ 0 then
      ["📉 No sales recorded in this period. Try logging at least 3 sales to unlock better insights."]
    else []
  let totalExpAll := (expArr.map (fun r => r.total_amount)).sum
  let tipsExp :=
    if totalExpAll ≤ 0 then
      ["🧾 No expenses recorded. Track costs (fuel, rent, ads) so profit is accurate."]
    else []
  let tipsTop :=
    match topProducts with
    | p0 :: _ :: _ =>
        let top1 := safeNum (some p0.revenue)
        let sumTop := (topProducts.map (fun p => p.revenue)).sum
        if 0 < sumTop ∧ 7/10 ≤ top1 / sumTop then
          ["⚠️ Most revenue comes from \"" ++ p0.item ++
            "\". Consider pushing 1–2 other products to reduce risk."]
        else []
    | [p0] =>
        ["📌 Top product is \"" ++ p0.item ++ "\". Add more product sales for richer insights."]
    | [] => []
  let tipsStock :=
    match stockSnap with
    | s0 :: _ =>
        let qty := safeNum s0.quantity
        (if qty = 0 then
          ["🚨 Stockout risk: \"" ++ s0.item ++ "\" stock is 0. Restock soon."] else []) ++
        (if 200 ≤ qty then
          ["📦 High stock: \"" ++ s0.item ++ "\" is " ++ ratToStr qty ++
            ". Consider a promo to increase turnover."] else [])
    | [] => ["📦 No stock updates found. Use: stock <item> <qty> (e.g. \"stock rice 20\")."]
  let tipsNet := (s.totals.net_by_currency.filter (fun p => p.2 < 0)).map
    (fun p => "🔻 Net is negative in " ++ p.1 ++ ". Review expenses and pricing.")
  (tipsSales ++ tipsExp ++ tipsTop ++ tipsStock ++ tipsNet).take 6

/-! ## Reply text rendering (`src/index.js` lines 231–259, 404–455) -/

/-- `summary?.business?.business_name || "Your Business"` -/
def businessNameOf (b : Option BusinessRow) : String :=
  match b with
  | some r => if r.business_name = "" then "Your Business" else r.business_name
  | none => "Your Business"

def formatMoney (currency : String) (amount : ℚ) : String :=
  currency ++ " " ++ ratToStr amount

/-- `formatAdviceMessage(summary)`. -/
def formatAdviceMessage (s : AdminSummary) : String :=
  let businessName := businessNameOf s.business
  let period := if s.period = "" then "period" else s.period
  let tips := computeInsightsFromSummary s
  let topLine :=
    match s.insights.top_products_by_revenue with
    | p0 :: _ =>
        "🏆 Top product: " ++ p0.item ++ " (" ++ p0.currency ++ " " ++
          ratToStr (safeNum (some p0.revenue)) ++ ")"
    | [] => "🏆 Top product: None yet"
  joinSep "\n"
    (["🧠 Predicta Advice (" ++ businessName ++ ")", "Period: " ++ period, "",
      topLine, "", "✅ Actionable tips:"] ++
      tips.map (fun t => "• " ++ t) ++ ["", "Tip: try \"summary week\""])

/-- `appendInsightsToSummaryText(summaryText, summaryObj)`. -/
def appendInsightsToSummaryText (summaryText : String) (summaryObj : AdminSummary) :
    String :=
  let tips := computeInsightsFromSummary summaryObj
  if tips.isEmpty then summaryText
  else summaryText ++ "\n\n🧠 Insights:\n" ++ joinSep "\n" (tips.map (fun t => "• " ++ t))

/-- `buildWhatsAppSummaryText(summary, period)`. -/
def buildWhatsAppSummaryText (summary : InternalSummary) (period : String) : String :=
  let businessName := businessNameOf summary.business
  let p := jsToLower (if period = "" then "today" else period)
  let salesLines :=
    if summary.totals.salesTotals.length > 0 then
      joinSep "\n" (summary.totals.salesTotals.map (fun r =>
        "• " ++ formatMoney r.currency r.total_amount ++
          " (qty: " ++ ratToStr r.total_qty ++ ")"))
    else "• None"
  let expenseLines :=
    if summary.totals.expenseTotals.length > 0 then
      joinSep "\n" (summary.totals.expenseTotals.map (fun r =>
        "• " ++ formatMoney r.currency r.total_amount))
    else "• None"
  let netLines :=
    if summary.totals.netByCurrency.length > 0 then
      joinSep "\n" (summary.totals.netByCurrency.map (fun cv =>
        "• " ++ formatMoney cv.1 cv.2))
    else "• 0"
  let topSales :=
    if summary.insights.topProductsByRevenue.length > 0 then
      joinSep "\n" (summary.insights.topProductsByRevenue.map (fun r =>
        "• " ++ r.item ++ ": " ++ formatMoney r.currency r.revenue ++
          " (qty: " ++ ratToStr r.qty ++ ")"))
    else "• None"
  let topExpenses :=
    if summary.insights.topExpenseCategories.length > 0 then
      joinSep "\n" (summary.insights.topExpenseCategories.map (fun r =>
        "• " ++ r.category ++ ": " ++ formatMoney r.currency r.total))
    else "• None"
  let stockPreview :=
    if summary.insights.stockSnapshot.length > 0 then
      joinSep "\n" ((summary.insights.stockSnapshot.take 5).map (fun r =>
        "• " ++ r.item ++ ": " ++ jsNumToStr r.quantity))
    else "• None"
  "📊 Predicta Summary (" ++ businessName ++ ")\n" ++
  "Period: " ++ p ++ " (last " ++ summary.intervalSql ++ ")\n\n" ++
  "💰 Sales:\n" ++ salesLines ++ "\n\n" ++
  "💸 Expenses:\n" ++ expenseLines ++ "\n\n" ++
  "📈 Net:\n" ++ netLines ++ "\n\n" ++
  "🏆 Top sales:\n" ++ topSales ++ "\n\n" ++
  "🧾 Top expenses:\n" ++ topExpenses ++ "\n\n" ++
  "📦 Stock (latest):\n" ++ stockPreview ++ "\n\n" ++
  "Tip: send \"summary week\" or \"advice week\""

/-! ## The inbound WhatsApp webhook (`src/index.js` lines 634–833)

`POST /twilio/whatsapp`: normalization, dispatch on the first token, and the
surrounding `try/catch` that turns any thrown storage error into the generic
apology reply.  The `NOW()` timestamps of inserted rows are the database
clock; the `now` used by the summary window is the clock at dispatch time. -/

def EMPTY_MSG_REPLY : String :=
  "Predicta: I received an empty message. Type 'help' for commands."

def APOLOGY_REPLY : String :=
  "⚠️ Predicta had a temporary error. Please try again in 30 seconds."

def UNKNOWN_REPLY : String :=
  "I didn’t understand that.\n" ++
  "Type \"help\" to see commands.\n\n" ++
  "Examples:\n" ++
  "• Sold 3 bin for 400 gbp\n" ++
  "• Spent £30 on fuel\n" ++
  "• Add stock bin 10\n" ++
  "• Summary week"

def SALE_USAGE : String :=
  "Usage: sale <item> <qty> <amount>[currency]\nExample: sale rice 3 ₦45000"

def EXPENSE_USAGE : String :=
  "Usage: expense <category> <amount>[currency]\nExample: expense fuel ₦15000"

def STOCK_USAGE : String :=
  "Usage: stock <item> <qty>\nExample: stock rice 20"

def STOCKADD_USAGE : String :=
  "Usage: add stock <item> <qty>\nExample: add stock rice 10"

def STOCKREMOVE_USAGE : String :=
  "Usage: remove stock <item> <qty>\nExample: remove stock rice 5"

/-- JS truthiness of an optional string (`undefined` and `""` are falsy). -/
def falsyStr : Option String → Bool
  | none => true
  | some s => s = ""

/-- `!Number.isFinite(qty) || qty <= 0` on `Number(qtyStr)`. -/
def posQty : Option ℚ → Bool
  | none => false
  | some q => decide (0 < q)

/-- `!Number.isFinite(qty) || qty < 0` on `Number(qtyStr)`. -/
def nonnegQty : Option ℚ → Bool
  | none => false
  | some q => decide (0 ≤ q)

/-- Validation of the `sale` branch:
`!itemToken || !Number.isFinite(qty) || qty <= 0 || !amountToken`. -/
def saleArgsInvalid (parts : List String) : Bool :=
  falsyStr (parts.get? 1) || !posQty (jsNumberOfOpt (parts.get? 2)) ||
    falsyStr (parts.get? 3)

/-- Validation of the `expense` branch: `!categoryToken || !amountToken`. -/
def expenseArgsInvalid (parts : List String) : Bool :=
  falsyStr (parts.get? 1) || falsyStr (parts.get? 2)

/-- Validation of the `stock` (set) branch:
`!itemToken || !Number.isFinite(qty) || qty < 0`. -/
def stockArgsInvalid (parts : List String) : Bool :=
  falsyStr (parts.get? 1) || !nonnegQty (jsNumberOfOpt (parts.get? 2))

/-- Validation of the `stockadd`/`stockremove` branches:
`!itemToken || !Number.isFinite(delta) || delta <= 0`. -/
def stockDeltaArgsInvalid (parts : List String) : Bool :=
  falsyStr (parts.get? 1) || !posQty (jsNumberOfOpt (parts.get? 2))

/-- `(parts[1] || "today").toLowerCase()` -/
def periodArgOf (parts : List String) : String :=
  jsToLower (match parts.get? 1 with
    | some p => if p = "" then "today" else p
    | none => "today")

def saleSuccessReply (item : String) (qty amount : ℚ) (currency : String)
    (time : Nat) : String :=
  "✅ Sale recorded\n" ++
  "Item: " ++ item ++ "\n" ++
  "Qty: " ++ ratToStr qty ++ "\n" ++
  "Total: " ++ currency ++ " " ++ ratToStr amount ++ "\n" ++
  "Time: " ++ natToStr time

def expenseSuccessReply (category : String) (amount : ℚ) (currency : String)
    (time : Nat) : String :=
  "✅ Expense recorded\n" ++
  "Category: " ++ category ++ "\n" ++
  "Amount: " ++ currency ++ " " ++ ratToStr amount ++ "\n" ++
  "Time: " ++ natToStr time

def stockSetSuccessReply (item : String) (qty : ℚ) (time : Nat) : String :=
  "✅ Stock updated (set)\n" ++
  "Item: " ++ item ++ "\n" ++
  "Qty: " ++ ratToStr qty ++ "\n" ++
  "Time: " ++ natToStr time

def stockAddSuccessReply (item : String) (delta next : ℚ) (time : Nat) : String :=
  "✅ Stock updated (added)\n" ++
  "Item: " ++ item ++ "\n" ++
  "Added: " ++ ratToStr delta ++ "\n" ++
  "New stock: " ++ ratToStr next ++ "\n" ++
  "Time: " ++ natToStr time

def stockRemoveSuccessReply (item : String) (delta next : ℚ) (time : Nat) : String :=
  "✅ Stock updated (removed)\n" ++
  "Item: " ++ item ++ "\n" ++
  "Removed: " ++ ratToStr delta ++ "\n" ++
  "New stock: " ++ ratToStr next ++ "\n" ++
  "Time: " ++ natToStr time

/-- `new Date()`: reading the wall clock is not a store call and consumes no
oracle slot. -/
def currentTime : SM Nat := fun _ db k => .ok (db.clock, db, k)

/-- The six queries of `getBusinessSummary`, one oracle slot each, in source
order. -/
def getBusinessSummaryM (businessId : Nat) (period : String) : SM InternalSummary := do
  let intervalSql := periodToInterval period
  let now ← currentTime
  let since := now - intervalDays intervalSql
  let businessInfo ← query (fun db =>
    (db.businesses.find? (fun b => b.id = businessId), db))
  let salesTotals ← query (fun db => (salesTotalsQ db businessId since, db))
  let expenseTotals ← query (fun db => (expenseTotalsQ db businessId since, db))
  let topProducts ← query (fun db => (topProductsQ db businessId since 3, db))
  let topExpCats ← query (fun db => (topExpenseCategoriesQ db businessId since 3, db))
  let stockSnap ← query (fun db => (stockSnapshotQ db businessId, db))
  let netByCurrency := netByCurrencyOf
    (salesTotals.map (fun r => (r.currency, r.total_amount)))
    (expenseTotals.map (fun r => (r.currency, r.total_amount)))
  SM.pure (InternalSummary.mk intervalSql businessInfo
    (InternalTotals.mk salesTotals expenseTotals netByCurrency)
    (InternalInsights.mk topProducts topExpCats stockSnap))

/-- Dispatch on the lowercased first token (`src/index.js` lines 655–820). -/
def dispatchCommand (businessName defaultCurrency : String) (businessId : Nat)
    (parts : List String) : SM String :=
  let cmd := jsToLower (parts.headD "")
  if cmd = "help" then SM.pure (helpText businessName)
  else if cmd = "summary" then do
    let period := periodArgOf parts
    let internalSummary ← getBusinessSummaryM businessId period
    let summaryText := buildWhatsAppSummaryText internalSummary period
    SM.pure (appendInsightsToSummaryText summaryText
      (adaptInternalSummaryToAdminShape internalSummary period))
  else if cmd = "advice" then do
    let period := periodArgOf parts
    let internalSummary ← getBusinessSummaryM businessId period
    SM.pure (formatAdviceMessage (adaptInternalSummaryToAdminShape internalSummary period))
  else if cmd = "sale" then
    if saleArgsInvalid parts then SM.pure SALE_USAGE
    else
      let item := jsToLower (unTokenizeItem ((parts.get? 1).getD ""))
      let qty := (jsNumberOfOpt (parts.get? 2)).getD 0
      match parseAmountAndCurrency (parts.get? 3) (parts.get? 4) defaultCurrency with
      | .error e => SM.pure ("Sale not recorded: " ++ e)
      | .ok parsed => do
          let t ← currentTime
          let _ ← insertSale businessId item qty parsed.amount parsed.currency
          SM.pure (saleSuccessReply item qty parsed.amount parsed.currency t)
  else if cmd = "expense" then
    if expenseArgsInvalid parts then SM.pure EXPENSE_USAGE
    else
      let category := jsToLower (unTokenizeItem ((parts.get? 1).getD ""))
      match parseAmountAndCurrency (parts.get? 2) (parts.get? 3) defaultCurrency with
      | .error e => SM.pure ("Expense not recorded: " ++ e)
      | .ok parsed => do
          let t ← currentTime
          let _ ← insertExpense businessId category parsed.amount parsed.currency
          SM.pure (expenseSuccessReply category parsed.amount parsed.currency t)
  else if cmd = "stock" then
    if stockArgsInvalid parts then SM.pure STOCK_USAGE
    else
      let item := jsToLower (unTokenizeItem ((parts.get? 1).getD ""))
      let qty := (jsNumberOfOpt (parts.get? 2)).getD 0
      do
        let t ← currentTime
        let _ ← insertStockEvent businessId item qty
        SM.pure (stockSetSuccessReply item qty t)
  else if cmd = "stockadd" then
    if stockDeltaArgsInvalid parts then SM.pure STOCKADD_USAGE
    else
      let item := jsToLower (unTokenizeItem ((parts.get? 1).getD ""))
      let delta := (jsNumberOfOpt (parts.get? 2)).getD 0
      do
        let current ← getLatestStockQtyM businessId item
        let next := current + delta
        let t ← currentTime
        let _ ← insertStockEvent businessId item next
        SM.pure (stockAddSuccessReply item delta next t)
  else if cmd = "stockremove" then
    if stockDeltaArgsInvalid parts then SM.pure STOCKREMOVE_USAGE
    else
      let item := jsToLower (unTokenizeItem ((parts.get? 1).getD ""))
      let delta := (jsNumberOfOpt (parts.get? 2)).getD 0
      do
        let current ← getLatestStockQtyM businessId item
        let next := max 0 (current - delta)
        let t ← currentTime
        let _ ← insertStockEvent businessId item next
        SM.pure (stockRemoveSuccessReply item delta next t)
  else SM.pure UNKNOWN_REPLY

/-- `const parts = incoming.split(" ")` after normalization and the second
whitespace collapse (`normalized.replace(/\s+/g, " ")`). -/
def partsOf (body : String) : List String :=
  jsSplitSpace (String.mk (squishWs (normalizeIncomingNL (jsTrim body)).toList))

/-- `const cmd = (parts[0] || "").toLowerCase()` -/
def cmdOf (body : String) : String := jsToLower ((partsOf body).headD "")

/-- The body of the `try` block of `POST /twilio/whatsapp`. -/
def twilioWhatsappCore (sender body : String) : SM String :=
  if sender = "" ∨ jsTrim body = "" then SM.pure EMPTY_MSG_REPLY
  else
    let prof := getOwnerProfile sender
    SM.bind (getOrCreateBusinessId sender prof.businessName prof.defaultCurrency)
      (fun businessId =>
        dispatchCommand prof.businessName prof.defaultCurrency businessId (partsOf body))

/-- `POST /twilio/whatsapp` with its `try/catch`: a reply string is produced
for every inbound message; a thrown storage error yields the apology. -/
def twilioWhatsapp (or : StoreOracle) (sender body : String) (db : DB) : String × DB :=
  match twilioWhatsappCore sender body or db 0 with
  | .ok (reply, db', _) => (reply, db')
  | .error (db', _) => (APOLOGY_REPLY, db')

/-- Events-only projection of the database (business rows are created
lazily on any first contact and are not events). -/
def eventsOf (db : DB) : List SaleRow × List ExpenseRow × List StockRow :=
  (db.sales, db.expenses, db.stock_events)

unseal Rat.mul Rat.inv Rat.add Rat.sub Rat.ofScientific in
example :
    (twilioWhatsapp (fun _ => true) "u" "sale rice 3 £45" DB.empty).2.sales =
      [⟨1, "rice", 3, 45, "GBP", 0⟩] := by decide

unseal Rat.mul Rat.inv Rat.add Rat.sub Rat.ofScientific in
example :
    (twilioWhatsapp (fun _ => true) "u" "sale rice 3 £45" DB.empty).1 =
      saleSuccessReply "rice" 3 45 "GBP" 0 := by decide

unseal Rat.mul Rat.inv Rat.add Rat.sub Rat.ofScientific in
example :
    (twilioWhatsapp (fun _ => true) "u" "sale" DB.empty).1 = SALE_USAGE := by decide

unseal Rat.mul Rat.inv Rat.add Rat.sub Rat.ofScientific in
example :
    (twilioWhatsapp (fun _ => false) "u" "sale rice 3 £45" DB.empty).1 =
      APOLOGY_REPLY := by decide

unseal Rat.mul Rat.inv Rat.add Rat.sub Rat.ofScientific in
example :
    (twilioWhatsapp (fun _ => true) "u" "blah blah" DB.empty).1 = UNKNOWN_REPLY := by
  decide

unseal Rat.mul Rat.inv Rat.add Rat.sub Rat.ofScientific in
example :
    (twilioWhatsapp (fun _ => true) "u" "summary" DB.empty).1 ≠ "" := by decide

unseal Rat.mul Rat.inv Rat.add Rat.sub Rat.ofScientific in
example :
    let db1 := (twilioWhatsapp (fun _ => true) "u" "stock rice 20" DB.empty).2
    let db2 := (twilioWhatsapp (fun _ => true) "u" "Add stock rice 10" db1).2
    let db3 := (twilioWhatsapp (fun _ => true) "u" "Remove stock rice 5" db2).2
    getLatestStockQty db3 1 "rice" = 25 := by decide

/-- The fault-free oracle: every store call succeeds. -/
def allOk : StoreOracle := fun _ => true

/-- Clock invariant of a race-free run: every stored stock event predates
the database clock (inserts stamp `db.clock` and then advance it). -/
def StockClocked (db : DB) : Prop := ∀ e ∈ db.stock_events, e.created_at < db.clock

/-- The data-model bounds actually maintained by the write paths: recorded
sale quantities are positive and recorded stock levels are nonnegative. -/
def EventBounds (db : DB) : Prop :=
  (∀ r ∈ db.sales, 0 < r.quantity) ∧ (∀ r ∈ db.stock_events, 0 ≤ r.quantity.getD 0)

/-! # General lemmas -/

theorem str_eq_empty_of_data (s : String) (h : s.data = []) : s = "" := by
  cases s with
  | mk data => rw [show data = [] from h]

theorem str_append_ne_empty (s t : String) (h : s ≠ "") : s ++ t ≠ "" := by
  intro hc
  apply h
  have hd : s.data ++ t.data = [] := by
    have := congrArg String.data hc
    simpa [String.instAppend, String.append] using this
  exact str_eq_empty_of_data s (List.append_eq_nil.mp hd).1

theorem joinSep_ne_empty (sep : String) (a : String) (l : List String)
    (h : a ≠ "") : joinSep sep (a :: l) ≠ "" := by
  cases l with
  | nil => simpa [joinSep] using h
  | cons b rest =>
    simpa [joinSep] using
      str_append_ne_empty (a ++ sep) _ (str_append_ne_empty a sep h)

theorem dedupFirst_go_mem {α : Type} [DecidableEq α] (l : List α)
    (acc : List α) (a : α) :
    a ∈ l.foldl (fun acc x => if x ∈ acc then acc else acc ++ [x]) acc ↔
      a ∈ acc ∨ a ∈ l := by
  induction l generalizing acc with
  | nil => simp
  | cons x xs ih =>
    simp only [List.foldl_cons, ih]
    by_cases hx : x ∈ acc
    · simp only [if_pos hx]
      constructor
      · rintro (h | h)
        · exact Or.inl h
        · exact Or.inr (List.mem_cons_of_mem _ h)
      · rintro (h | h)
        · exact Or.inl h
        · rcases List.mem_cons.mp h with rfl | h
          · exact Or.inl hx
          · exact Or.inr h
    · simp only [if_neg hx, List.mem_append, List.mem_singleton, List.mem_cons]
      tauto

theorem mem_dedupFirst {α : Type} [DecidableEq α] (l : List α) (a : α) :
    a ∈ dedupFirst l ↔ a ∈ l := by
  unfold dedupFirst
  simpa using dedupFirst_go_mem l [] a

theorem dedupFirst_go_nodup {α : Type} [DecidableEq α] (l : List α)
    (acc : List α) (hacc : acc.Nodup) :
    (l.foldl (fun acc x => if x ∈ acc then acc else acc ++ [x]) acc).Nodup := by
  induction l generalizing acc with
  | nil => simpa using hacc
  | cons x xs ih =>
    simp only [List.foldl_cons]
    by_cases hx : x ∈ acc
    · simpa [if_pos hx] using ih acc hacc
    · refine ih _ ?_
      rw [if_neg hx]
      simpa [List.nodup_append] using ⟨hacc, hx⟩

theorem nodup_dedupFirst {α : Type} [DecidableEq α] (l : List α) :
    (dedupFirst l).Nodup := by
  unfold dedupFirst
  exact dedupFirst_go_nodup l [] List.nodup_nil

/-- The fold step of `latestRow`. -/
def latestStep (acc : Option StockRow) (r : StockRow) : Option StockRow :=
  match acc with
  | none => some r
  | some c => if c.created_at < r.created_at then some r else some c

theorem latestStep_none (r : StockRow) : latestStep none r = some r := rfl

theorem latestStep_some (c r : StockRow) :
    latestStep (some c) r =
      if c.created_at < r.created_at then some r else some c := rfl

theorem latestRow_eq_foldl (rows : List StockRow) :
    latestRow rows = rows.foldl latestStep none := rfl

theorem latest_foldl_mem (rows : List StockRow) (acc : Option StockRow)
    (r : StockRow) (h : rows.foldl latestStep acc = some r) :
    acc = some r ∨ r ∈ rows := by
  induction rows generalizing acc with
  | nil => exact Or.inl h
  | cons e es ih =>
    rcases ih (latestStep acc e) h with h' | h'
    · match acc, h' with
      | none, h' =>
          rw [latestStep_none] at h'
          exact Or.inr (List.mem_cons.mpr (Or.inl (Option.some.inj h').symm))
      | some c, h' =>
          rw [latestStep_some] at h'
          by_cases hlt : c.created_at < e.created_at
          · rw [if_pos hlt] at h'
            exact Or.inr (List.mem_cons.mpr (Or.inl (Option.some.inj h').symm))
          · rw [if_neg hlt] at h'
            exact Or.inl h'
    · exact Or.inr (List.mem_cons_of_mem _ h')

theorem latest_foldl_ub (rows : List StockRow) (acc : Option StockRow)
    (r : StockRow) (h : rows.foldl latestStep acc = some r) :
    (∀ c, acc = some c → c.created_at ≤ r.created_at) ∧
      ∀ e ∈ rows, e.created_at ≤ r.created_at := by
  induction rows generalizing acc with
  | nil =>
    simp only [List.foldl_nil] at h
    refine ⟨fun c hc => ?_, by simp⟩
    rw [h] at hc
    rw [Option.some.inj hc]
  | cons e es ih =>
    have hstep := ih (latestStep acc e) h
    have hacc : ∀ c, acc = some c → c.created_at ≤ r.created_at := by
      intro c hc
      subst hc
      by_cases hlt : c.created_at < e.created_at
      · exact le_trans (le_of_lt hlt)
          (hstep.1 e (by rw [latestStep_some, if_pos hlt]))
      · exact hstep.1 c (by rw [latestStep_some, if_neg hlt])
    have he : e.created_at ≤ r.created_at := by
      match acc with
      | none => exact hstep.1 e (latestStep_none e)
      | some c =>
        by_cases hlt : c.created_at < e.created_at
        · exact hstep.1 e (by rw [latestStep_some, if_pos hlt])
        · exact le_trans (le_of_not_lt hlt)
            (hstep.1 c (by rw [latestStep_some, if_neg hlt]))
    refine ⟨hacc, fun x hx => ?_⟩
    rcases List.mem_cons.mp hx with rfl | hx
    · exact he
    · exact hstep.2 x hx

theorem latestRow_mem (rows : List StockRow) (r : StockRow)
    (h : latestRow rows = some r) : r ∈ rows := by
  rcases latest_foldl_mem rows none r h with h' | h'
  · cases h'
  · exact h'

theorem latestRow_ub (rows : List StockRow) (r : StockRow)
    (h : latestRow rows = some r) : ∀ e ∈ rows, e.created_at ≤ r.created_at :=
  (latest_foldl_ub rows none r h).2

theorem latest_foldl_some (rows : List StockRow) (c : StockRow) :
    ∀ acc, acc = some c → (rows.foldl latestStep acc).isSome := by
  induction rows generalizing c with
  | nil => intro acc h; rw [h]; rfl
  | cons e es ih =>
    intro acc h
    subst h
    simp only [List.foldl_cons]
    by_cases hlt : c.created_at < e.created_at
    · rw [latestStep_some, if_pos hlt]; exact ih e (some e) rfl
    · rw [latestStep_some, if_neg hlt]; exact ih c (some c) rfl

theorem latestRow_eq_none_iff (rows : List StockRow) :
    latestRow rows = none ↔ rows = [] := by
  constructor
  · intro h
    cases rows with
    | nil => rfl
    | cons e es =>
      exfalso
      have hs : (es.foldl latestStep (latestStep none e)).isSome :=
        latest_foldl_some es e (latestStep none e) (latestStep_none e)
      rw [latestRow_eq_foldl, List.foldl_cons] at h
      rw [h] at hs
      cases hs
  · rintro rfl; rfl

theorem latestRow_append_gt (l : List StockRow) (r : StockRow)
    (h : ∀ x ∈ l, x.created_at < r.created_at) :
    latestRow (l ++ [r]) = some r := by
  rw [latestRow_eq_foldl, List.foldl_append]
  rw [← latestRow_eq_foldl]
  match hl : latestRow l with
  | none => rfl
  | some c =>
    have hc := latestRow_mem l c hl
    simp only [List.foldl_cons, List.foldl_nil]
    rw [latestStep_some, if_pos (h c hc)]

/-- After an insert into a stock-clocked database, the latest stock quantity
for that business/item is exactly the inserted level. -/
theorem getLatestStockQty_insert (db : DB) (bid : Nat) (item : String) (q : ℚ)
    (hwc : StockClocked db) :
    getLatestStockQty (insertStockEventDB db bid item q) bid item = q := by
  unfold getLatestStockQty stockRowsFor insertStockEventDB
  have hfil : List.filter
      (fun e : StockRow => decide (e.business_id = bid ∧ e.item = item))
      [{ business_id := bid, item := item, quantity := some q,
         created_at := db.clock }] =
      [{ business_id := bid, item := item, quantity := some q,
         created_at := db.clock }] := by simp
  simp only [List.filter_append, hfil]
  rw [latestRow_append_gt]
  · rfl
  · intro x hx
    exact hwc x (List.mem_filter.mp hx).1

theorem stockClocked_insert (db : DB) (bid : Nat) (item : String) (q : ℚ)
    (hwc : StockClocked db) : StockClocked (insertStockEventDB db bid item q) := by
  intro e he
  unfold insertStockEventDB at he ⊢
  simp only [List.mem_append, List.mem_singleton] at he
  rcases he with he | rfl
  · exact Nat.lt_succ_of_lt (hwc e he)
  · exact Nat.lt_succ_self _

/-! # Claims -/

/-- **C2**: for race-free sequences of stock operations on one business and
item (modelled by the monotone-clock invariant `StockClocked`), the
read-then-append composition of the `stockadd` branch
(`getLatestStockQty` then `insertStockEventDB` of `current + d`,
`src/index.js` lines 767–787) makes the latest stock quantity the prior
level plus `d`; the `stockremove` composition (lines 789–809) appends
`max 0 (current − d)`, so the latest quantity equals the prior level minus
`d` floored at 0 and is never negative. -/
theorem stock_ops_race_free_semantics (db : DB) (bid : Nat) (item : String)
    (d : ℚ) (hwc : StockClocked db) (hd : 0 < d) :
    (getLatestStockQty
        (insertStockEventDB db bid item (getLatestStockQty db bid item + d))
        bid item = getLatestStockQty db bid item + d) ∧
    (getLatestStockQty
        (insertStockEventDB db bid item
          (max 0 (getLatestStockQty db bid item - d)))
        bid item = max 0 (getLatestStockQty db bid item - d)) ∧
    0 ≤ getLatestStockQty
        (insertStockEventDB db bid item
          (max 0 (getLatestStockQty db bid item - d)))
        bid item := by
  refine ⟨getLatestStockQty_insert db bid item _ hwc,
    getLatestStockQty_insert db bid item _ hwc, ?_⟩
  rw [getLatestStockQty_insert db bid item _ hwc]
  exact le_max_left 0 _

unseal Rat.mul Rat.inv Rat.add Rat.sub Rat.ofScientific in
theorem stock_ops_race_free_semantics_witness :
    0 < (10 : ℚ) ∧
    getLatestStockQty
        (insertStockEventDB DB.empty 1 "rice"
          (getLatestStockQty DB.empty 1 "rice" + 10)) 1 "rice" =
      getLatestStockQty DB.empty 1 "rice" + 10 :=
  ⟨by norm_num,
    (stock_ops_race_free_semantics DB.empty 1 "rice" 10
      (by intro e he; simp [DB.empty] at he) (by norm_num)).1⟩

/-- **C10**: for an item with no recorded StockEvent the latest-quantity
lookup returns 0 (`src/index.js` lines 162–176), and it also returns 0 when
the most recent stored quantity is not finite; consequently a first
`stockadd(item, d)` records absolute level `d` and a first
`stockremove(item, d)` records level 0 (lines 767–809). -/
theorem getLatestStockQty_fresh_item (db : DB) (bid : Nat) (item : String)
    (d : ℚ) (hfresh : stockRowsFor db bid item = []) (hwc : StockClocked db)
    (hd : 0 < d) :
    getLatestStockQty db bid item = 0 ∧
    (∀ (db' : DB) (bid' : Nat) (item' : String) (r : StockRow),
        latestRow (stockRowsFor db' bid' item') = some r → r.quantity = none →
        getLatestStockQty db' bid' item' = 0) ∧
    getLatestStockQty
        (insertStockEventDB db bid item (getLatestStockQty db bid item + d))
        bid item = d ∧
    getLatestStockQty
        (insertStockEventDB db bid item
          (max 0 (getLatestStockQty db bid item - d)))
        bid item = 0 := by
  have hzero : getLatestStockQty db bid item = 0 := by
    unfold getLatestStockQty
    rw [hfresh]
    rfl
  refine ⟨hzero, ?_, ?_, ?_⟩
  · intro db' bid' item' r hr hq
    unfold getLatestStockQty
    rw [hr]
    show r.quantity.getD 0 = 0
    rw [hq]
    rfl
  · rw [getLatestStockQty_insert db bid item _ hwc, hzero, zero_add]
  · rw [getLatestStockQty_insert db bid item _ hwc, hzero, zero_sub]
    exact max_eq_left (neg_nonpos.mpr (le_of_lt hd))

unseal Rat.mul Rat.inv Rat.add Rat.sub Rat.ofScientific in
theorem getLatestStockQty_fresh_item_witness :
    stockRowsFor DB.empty 7 "beans" = [] ∧ 0 < (10 : ℚ) ∧
    getLatestStockQty DB.empty 7 "beans" = 0 ∧
    getLatestStockQty
        (insertStockEventDB DB.empty 7 "beans"
          (getLatestStockQty DB.empty 7 "beans" + 10)) 7 "beans" = 10 :=
  have h := getLatestStockQty_fresh_item DB.empty 7 "beans" 10 (by decide)
    (by intro e he; simp [DB.empty] at he) (by norm_num)
  ⟨by decide, by norm_num, h.1, h.2.2.1⟩

/-- A pair of leading elements survives `take n` for `n ≥ 2`. -/
theorem mem_take_two {α : Type} (a b : α) (l : List α) (n : Nat) (hn : 2 ≤ n) :
    a ∈ (a :: b :: l).take n ∧ b ∈ (a :: b :: l).take n := by
  match n, hn with
  | n + 2, _ =>
    simp [List.take_succ_cons]

/-- **C9**: a summary whose total sales across all currencies is ≤ 0 and
whose total expenses across all currencies is ≤ 0 yields both the no-sales
tip and the no-expenses tip (`src/index.js` lines 194–202), and for every
summary the tip list produced by `computeInsightsFromSummary` never exceeds
6 entries (the final `slice(0, 6)`, line 228). -/
theorem insights_no_activity_tips_and_cap (s : AdminSummary) :
    ((s.totals.sales_by_currency.map (fun r => r.total_amount)).sum ≤ 0 →
      (s.totals.expenses_by_currency.map (fun r => r.total_amount)).sum ≤ 0 →
      "📉 No sales recorded in this period. Try logging at least 3 sales to unlock better insights."
          ∈ computeInsightsFromSummary s ∧
        "🧾 No expenses recorded. Track costs (fuel, rent, ads) so profit is accurate."
          ∈ computeInsightsFromSummary s) ∧
    (computeInsightsFromSummary s).length ≤ 6 := by
  constructor
  · intro hs he
    simp only [computeInsightsFromSummary]
    rw [if_pos hs, if_pos he]
    simp only [List.singleton_append, List.cons_append]
    exact mem_take_two _ _ _ 6 (by norm_num)
  · simp only [computeInsightsFromSummary]
    exact List.length_take_le 6 _

unseal Rat.mul Rat.inv Rat.add Rat.sub Rat.ofScientific in
theorem insights_no_activity_tips_and_cap_witness :
    let s : AdminSummary := AdminSummary.mk "today" none
      (AdminTotals.mk [] [] []) (AdminInsights.mk [] [] [])
    "📉 No sales recorded in this period. Try logging at least 3 sales to unlock better insights."
        ∈ computeInsightsFromSummary s ∧
      "🧾 No expenses recorded. Track costs (fuel, rent, ads) so profit is accurate."
        ∈ computeInsightsFromSummary s :=
  (insights_no_activity_tips_and_cap _).1 (by decide) (by decide)

unseal Rat.mul Rat.inv Rat.add Rat.sub Rat.ofScientific in
/-- **C3** (counterexample): the claim says the parser fails with
`InvalidAmount` *exactly when* the numeric remainder is empty or does not
parse to a finite number.  But `Number("") === 0` in JS, so a recognized
currency symbol with an *empty* numeric remainder parses successfully with
amount 0 instead of failing: `"₦"` yields `(0, "NGN")`. -/
theorem parseAmount_empty_remainder_counterexample :
    parseAmountAndCurrency (some "₦") none "NGN" =
      .ok ⟨0, "NGN"⟩ := by decide

unseal Rat.mul Rat.inv Rat.add Rat.sub Rat.ofScientific in
/-- **C3** (amended): the parser resolves the currency in priority order —
a recognized leading symbol, else a second token that uppercases to a
recognized code, else the business default falling back to `"NGN"` — and,
in each case, succeeds with `{amount, currency}` exactly when the relevant
numeric string converts to a finite number, failing with the
`InvalidAmount` message otherwise; an entirely empty (separator-stripped)
token always fails, but an empty remainder *after* a symbol converts to 0
and succeeds (`src/index.js` lines 69–92).  The concrete conjuncts ground
the priority order and the spec's four examples. -/
theorem parseAmountAndCurrency_characterization
    (raw maybe : Option String) (dc : String) :
    (normalizeAmountToken raw = "" →
      parseAmountAndCurrency raw maybe dc = .error "Invalid amount format.") ∧
    (∀ (c : Char) (rest : List Char) (cur : String),
      (normalizeAmountToken raw).toList = c :: rest →
      SYMBOL_TO_CODE c = some cur →
      parseAmountAndCurrency raw maybe dc =
        (match jsStringToNumber (String.mk rest) with
         | none => .error "Invalid amount format."
         | some v => .ok ⟨v, cur⟩)) ∧
    (∀ (c : Char) (rest : List Char),
      (normalizeAmountToken raw).toList = c :: rest →
      SYMBOL_TO_CODE c = none →
      (jsToUpper (normalizeAmountToken maybe) ≠ "" ∧
        jsToUpper (normalizeAmountToken maybe) ∈ CODE_SET) →
      parseAmountAndCurrency raw maybe dc =
        (match jsStringToNumber (normalizeAmountToken raw) with
         | none => .error "Invalid amount format."
         | some v => .ok ⟨v, jsToUpper (normalizeAmountToken maybe)⟩)) ∧
    (∀ (c : Char) (rest : List Char),
      (normalizeAmountToken raw).toList = c :: rest →
      SYMBOL_TO_CODE c = none →
      ¬ (jsToUpper (normalizeAmountToken maybe) ≠ "" ∧
        jsToUpper (normalizeAmountToken maybe) ∈ CODE_SET) →
      parseAmountAndCurrency raw maybe dc =
        (match jsStringToNumber (normalizeAmountToken raw) with
         | none => .error "Invalid amount format."
         | some v => .ok ⟨v, if dc = "" then "NGN" else dc⟩)) ∧
    parseAmountAndCurrency (some "₦45000") none "NGN" = .ok ⟨45000, "NGN"⟩ ∧
    parseAmountAndCurrency (some "45") (some "GBP") "NGN" = .ok ⟨45, "GBP"⟩ ∧
    parseAmountAndCurrency (some "45") none "NGN" = .ok ⟨45, "NGN"⟩ ∧
    parseAmountAndCurrency (some "abc") none "NGN" =
      .error "Invalid amount format." ∧
    parseAmountAndCurrency (some "£45") (some "USD") "NGN" = .ok ⟨45, "GBP"⟩ ∧
    parseAmountAndCurrency (some "45") (some "usd") "NGN" = .ok ⟨45, "USD"⟩ ∧
    parseAmountAndCurrency (some "45") (some "EUR") "GBP" = .ok ⟨45, "GBP"⟩ := by
  refine ⟨?_, ?_, ?_, ?_, by decide, by decide, by decide, by decide, by decide,
    by decide, by decide⟩
  · intro h
    simp only [parseAmountAndCurrency]
    rw [show (normalizeAmountToken raw).toList = [] by rw [h]; rfl]
  · intro c rest cur he hsym
    simp only [parseAmountAndCurrency, he, hsym]
  · intro c rest he hsym hcode
    simp only [parseAmountAndCurrency, he, hsym, if_pos hcode]
  · intro c rest he hsym hcode
    simp only [parseAmountAndCurrency, he, hsym, if_neg hcode]

unseal Rat.mul Rat.inv Rat.add Rat.sub Rat.ofScientific in
theorem parseAmountAndCurrency_characterization_witness :
    parseAmountAndCurrency (some "₦45000") none "GBP" = .ok ⟨45000, "NGN"⟩ := by
  have h := (parseAmountAndCurrency_characterization (some "₦45000") none "GBP").2.1
    '₦' "45000".toList "NGN" (by decide) (by decide)
  rw [h]
  decide

unseal Rat.mul Rat.inv Rat.add Rat.sub Rat.ofScientific in
/-- **C8**: the normalizer applies its ordered rewrite rules first-match-wins
(`src/index.js` lines 471–533) — pass-through for inputs starting with
"summary"/"advice" (case-insensitive), exactly "help" (case-insensitive)
maps to "help", the four sold/spent/add/remove rewrites join multi-word
item/category phrases with underscores, and input matching no rule is
returned unchanged.  "Unchanged" is relative to the function's whitespace
canonicalization (`trim` + collapse), which the spec fixes as the
normalizer's input form. -/
theorem normalizeIncomingNL_rules :
    normalizeIncomingNL "Sold 3 bin for 400 gbp" = "sale bin 3 400 gbp" ∧
    normalizeIncomingNL "Spent £30 on fuel" = "expense fuel £30" ∧
    normalizeIncomingNL "Add stock bin 10" = "stockadd bin 10" ∧
    normalizeIncomingNL "Remove stock bin 5" = "stockremove bin 5" ∧
    normalizeIncomingNL "Sold 2 blue bin for 400" = "sale blue_bin 2 400" ∧
    normalizeIncomingNL "HELP" = "help" ∧
    (∀ raw, jsStartsWith (jsToLower (collapseWs raw)) "summary" = true →
      normalizeIncomingNL raw = collapseWs raw) ∧
    (∀ raw, jsStartsWith (jsToLower (collapseWs raw)) "summary" = false →
      jsStartsWith (jsToLower (collapseWs raw)) "advice" = true →
      normalizeIncomingNL raw = collapseWs raw) ∧
    (∀ raw, jsToLower (collapseWs raw) = "help" →
      normalizeIncomingNL raw = "help") ∧
    (∀ raw, jsStartsWith (jsToLower (collapseWs raw)) "summary" = false →
      jsStartsWith (jsToLower (collapseWs raw)) "advice" = false →
      jsToLower (collapseWs raw) ≠ "help" →
      matchSold (jsSplitSpace (collapseWs raw)) = none →
      matchSpent (jsSplitSpace (collapseWs raw)) = none →
      matchAddStock (jsSplitSpace (collapseWs raw)) = none →
      matchRemoveStock (jsSplitSpace (collapseWs raw)) = none →
      normalizeIncomingNL raw = collapseWs raw) := by
  refine ⟨by decide, by decide, by decide, by decide, by decide, by decide,
    ?_, ?_, ?_, ?_⟩
  · intro raw h1
    simp only [normalizeIncomingNL, h1, if_true]
  · intro raw h1 h2
    simp only [normalizeIncomingNL, h1, h2, if_true, Bool.false_eq_true,
      if_false]
  · intro raw h1
    simp only [normalizeIncomingNL, h1,
      show jsStartsWith "help" "summary" = false from rfl,
      show jsStartsWith "help" "advice" = false from rfl,
      Bool.false_eq_true, if_false, if_true]
  · intro raw h1 h2 h3 h4 h5 h6 h7
    simp only [normalizeIncomingNL, h1, h2, h4, h5, h6, h7,
      Bool.false_eq_true, if_false, if_neg h3]

unseal Rat.mul Rat.inv Rat.add Rat.sub Rat.ofScientific in
theorem normalizeIncomingNL_rules_witness :
    normalizeIncomingNL "Summary week" = "Summary week" ∧
    normalizeIncomingNL "sale rice 3 ₦45000" = "sale rice 3 ₦45000" := by
  constructor
  · have h := (normalizeIncomingNL_rules).2.2.2.2.2.2.1 "Summary week" (by decide)
    rw [h]; decide
  · have h := (normalizeIncomingNL_rules).2.2.2.2.2.2.2.2.2 "sale rice 3 ₦45000"
      (by decide) (by decide) (by decide) (by decide) (by decide) (by decide)
      (by decide)
    rw [h]; decide

/-- A two-sale database with a revenue tie: items "a" (qty 1) and "b"
(qty 5) both total 100 NGN, "a" grouped first. -/
def dbRevTie : DB :=
  DB.mk [] [SaleRow.mk 1 "a" 1 100 "NGN" 0, SaleRow.mk 1 "b" 5 100 "NGN" 1]
    [] [] 2 2

unseal Rat.mul Rat.inv Rat.add Rat.sub Rat.ofScientific in
/-- **C6** (counterexample): the top-products query orders by revenue only
(`ORDER BY revenue DESC LIMIT ...`, `src/index.js` lines 347–357 and
980–990) — there is no quantity tiebreak.  With two items tied at revenue
100 the grouped order survives: the result lists "a" (qty 1) before "b"
(qty 5), violating "ties broken by quantity descending". -/
theorem topProducts_tiebreak_counterexample :
    (getBusinessSummary dbRevTie 1 "today" 1).insights.topProductsByRevenue =
      [TopProductRow.mk "a" "NGN" 100 1, TopProductRow.mk "b" "NGN" 100 5] ∧
    ¬ ((getBusinessSummary dbRevTie 1 "today" 1).insights.topProductsByRevenue).Pairwise
        (fun x y => y.revenue < x.revenue ∨ (x.revenue = y.revenue ∧ y.qty ≤ x.qty)) := by
  constructor
  · decide
  · decide

theorem topProductsQ_sorted_short (db : DB) (bid : Nat) (since : Nat)
    (lim : Nat) :
    (topProductsQ db bid since lim).Pairwise (fun x y => y.revenue ≤ x.revenue) ∧
      (topProductsQ db bid since lim).length ≤ lim := by
  unfold topProductsQ
  constructor
  · apply List.Pairwise.sublist (List.take_sublist _ _)
    haveI : IsTotal TopProductRow (fun x y => y.revenue ≤ x.revenue) :=
      ⟨fun a b => le_total b.revenue a.revenue⟩
    haveI : IsTrans TopProductRow (fun x y => y.revenue ≤ x.revenue) :=
      ⟨fun _ _ _ hab hbc => le_trans hbc hab⟩
    exact List.sorted_insertionSort _ _
  · exact List.length_take_le _ _

/-- **C6** (amended): the summary's top products are ranked by revenue
descending only — revenue ties keep the storage engine's underlying order,
with no quantity tiebreak — and the list is limited to 3 entries for chat
replies (`getBusinessSummary`) and 5 for the detailed admin report
(`GET /admin/summary`). -/
theorem topProducts_ranking (db : DB) (bid : Nat) (p : String) (now : Nat) :
    ((getBusinessSummary db bid p now).insights.topProductsByRevenue).Pairwise
        (fun x y => y.revenue ≤ x.revenue) ∧
      ((getBusinessSummary db bid p now).insights.topProductsByRevenue).length ≤ 3 ∧
      ((adminSummaryQ db bid p now).insights.top_products_by_revenue).Pairwise
        (fun x y => y.revenue ≤ x.revenue) ∧
      ((adminSummaryQ db bid p now).insights.top_products_by_revenue).length ≤ 5 := by
  refine ⟨?_, ?_, ?_, ?_⟩ <;> simp only [getBusinessSummary, adminSummaryQ]
  · exact (topProductsQ_sorted_short db bid _ 3).1
  · exact (topProductsQ_sorted_short db bid _ 3).2
  · exact (topProductsQ_sorted_short db bid _ 5).1
  · exact (topProductsQ_sorted_short db bid _ 5).2

theorem objGet_map_graph (cs : List String) (f : String → ℚ) (c : String) :
    objGet (cs.map (fun c => (c, f c))) c =
      if c ∈ cs then some (f c) else none := by
  induction cs with
  | nil => simp [objGet]
  | cons c' cs ih =>
    by_cases hc : c' = c
    · subst hc
      simp [objGet]
    · simp only [List.map_cons, objGet, if_neg hc, ih]
      simp [List.mem_cons, Ne.symm hc]

theorem objGet_eq_none_of_not_mem (m : List (String × ℚ)) (c : String)
    (h : c ∉ m.map Prod.fst) : objGet m c = none := by
  induction m with
  | nil => rfl
  | cons p m ih =>
    simp only [List.map_cons, List.mem_cons] at h
    push_neg at h
    simp only [objGet, if_neg (Ne.symm h.1)]
    exact ih h.2

theorem objGet_append_single_none (m : List (String × ℚ)) (r : String × ℚ)
    (c : String) (h : objGet m c = none) :
    objGet (m ++ [r]) c = if r.1 = c then some r.2 else none := by
  induction m with
  | nil => simp [objGet]
  | cons p m ih =>
    simp only [objGet, List.cons_append] at h ⊢
    by_cases hp : p.1 = c
    · rw [if_pos hp] at h; cases h
    · rw [if_neg hp] at h ⊢
      exact ih h

theorem objGet_append_single_some (m : List (String × ℚ)) (r : String × ℚ)
    (c : String) (v : ℚ) (h : objGet m c = some v) :
    objGet (m ++ [r]) c = some v := by
  induction m with
  | nil => cases h
  | cons p m ih =>
    simp only [objGet, List.cons_append] at h ⊢
    by_cases hp : p.1 = c
    · rwa [if_pos hp] at h ⊢
    · rw [if_neg hp] at h ⊢
      exact ih h

theorem mem_keys_objSet (m : List (String × ℚ)) (k : String) (v : ℚ)
    (a : String) :
    a ∈ (objSet m k v).map Prod.fst ↔ a ∈ m.map Prod.fst ∨ a = k := by
  unfold objSet
  by_cases hk : m.any (fun p => p.1 = k)
  · rw [if_pos hk]
    have hkeys : (m.map (fun p => if p.1 = k then (k, v) else p)).map Prod.fst =
        m.map Prod.fst := by
      rw [List.map_map]
      apply List.map_congr_left
      intro p _
      by_cases hp : p.1 = k
      · simp [hp]
      · simp [hp]
    rw [hkeys]
    constructor
    · exact Or.inl
    · rintro (h | rfl)
      · exact h
      · rcases List.any_eq_true.mp hk with ⟨p, hp, hpe⟩
        exact List.mem_map.mpr ⟨p, hp, by simpa using hpe⟩
  · rw [if_neg hk]
    simp [List.mem_append]

theorem objGet_objSet_self (m : List (String × ℚ)) (k : String) (v : ℚ) :
    objGet (objSet m k v) k = some v := by
  unfold objSet
  by_cases hk : m.any (fun p => p.1 = k)
  · rw [if_pos hk]
    induction m with
    | nil => simp at hk
    | cons p m ih =>
      simp only [List.map_cons, objGet]
      by_cases hp : p.1 = k
      · simp [hp]
      · rw [if_neg hp]
        have hk' : m.any (fun p => p.1 = k) := by
          rcases List.any_eq_true.mp hk with ⟨q, hq, hqe⟩
          rcases List.mem_cons.mp hq with rfl | hq
          · simp at hqe; exact absurd hqe hp
          · exact List.any_eq_true.mpr ⟨q, hq, hqe⟩
        rw [if_neg hp]
        exact ih hk'
  · rw [if_neg hk]
    have hnone : objGet m k = none := by
      apply objGet_eq_none_of_not_mem
      intro hmem
      rcases List.mem_map.mp hmem with ⟨p, hp, hpk⟩
      exact hk (List.any_eq_true.mpr ⟨p, hp, by simpa using hpk⟩)
    rw [objGet_append_single_none m (k, v) k hnone]
    simp

theorem objGet_mapSet_ne (m : List (String × ℚ)) (k : String) (v : ℚ)
    (c : String) (hc : c ≠ k) :
    objGet (m.map (fun p => if p.1 = k then (k, v) else p)) c = objGet m c := by
  induction m with
  | nil => rfl
  | cons p m ih =>
    simp only [List.map_cons, objGet]
    by_cases hp : p.1 = k
    · rw [show ((if p.1 = k then (k, v) else p) : String × ℚ) = (k, v) by
        simp [hp]]
      rw [if_neg (show ¬ ((k, v) : String × ℚ).1 = c from Ne.symm hc),
        if_neg (show ¬ p.1 = c by rw [hp]; exact Ne.symm hc)]
      exact ih
    · rw [show ((if p.1 = k then (k, v) else p) : String × ℚ) = p by
        simp [hp]]
      by_cases hpc : p.1 = c
      · rw [if_pos hpc, if_pos hpc]
      · rw [if_neg hpc, if_neg hpc]
        exact ih

theorem objGet_objSet_ne (m : List (String × ℚ)) (k : String) (v : ℚ)
    (c : String) (hc : c ≠ k) : objGet (objSet m k v) c = objGet m c := by
  unfold objSet
  by_cases hk : m.any (fun p => p.1 = k)
  · rw [if_pos hk]
    exact objGet_mapSet_ne m k v c hc
  · rw [if_neg hk]
    cases hm : objGet m c with
    | none =>
      rw [objGet_append_single_none m (k, v) c hm]
      simp [Ne.symm hc]
    | some v' => exact objGet_append_single_some m (k, v) c v' hm

theorem buildAmountMap_append (rows : List (String × ℚ)) (r : String × ℚ) :
    buildAmountMap (rows ++ [r]) = objSet (buildAmountMap rows) r.1 r.2 := by
  unfold buildAmountMap
  rw [List.foldl_append]
  rfl

theorem mem_keys_buildAmountMap (rows : List (String × ℚ)) (a : String) :
    a ∈ (buildAmountMap rows).map Prod.fst ↔ a ∈ rows.map Prod.fst := by
  induction rows using List.reverseRecOn with
  | nil => simp [buildAmountMap]
  | append_singleton rows r ih =>
    rw [buildAmountMap_append, mem_keys_objSet]
    simp [List.map_append, ih]

theorem objGet_buildAmountMap_nodup (rows : List (String × ℚ))
    (h : (rows.map Prod.fst).Nodup) (c : String) :
    objGet (buildAmountMap rows) c = objGet rows c := by
  induction rows using List.reverseRecOn with
  | nil => rfl
  | append_singleton rows r ih =>
    rw [List.map_append, List.nodup_append] at h
    obtain ⟨hn, -, hdisj⟩ := h
    have hnot : r.1 ∉ rows.map Prod.fst := by
      intro hmem
      exact hdisj hmem (by simp)
    rw [buildAmountMap_append]
    by_cases hc : c = r.1
    · rw [hc, objGet_objSet_self]
      have hnone : objGet rows r.1 = none :=
        objGet_eq_none_of_not_mem rows r.1 hnot
      rw [objGet_append_single_none rows r r.1 hnone, if_pos rfl]
    · rw [objGet_objSet_ne _ _ _ _ hc, ih hn]
      cases hm : objGet rows c with
      | none =>
        rw [objGet_append_single_none rows r c hm,
          if_neg (fun hr => hc hr.symm)]
      | some v => rw [objGet_append_single_some rows r c v hm]

/-- The core of C5 over arbitrary grouped rows: the net map is defined on
exactly the union of the two key sets, with a missing side read as 0. -/
theorem netByCurrencyOf_lookup (sr er : List (String × ℚ)) (c : String)
    (hs : (sr.map Prod.fst).Nodup) (he : (er.map Prod.fst).Nodup) :
    ((c ∈ sr.map Prod.fst ∨ c ∈ er.map Prod.fst) →
      objGet (netByCurrencyOf sr er) c =
        some ((objGet sr c).getD 0 - (objGet er c).getD 0)) ∧
    (¬ (c ∈ sr.map Prod.fst ∨ c ∈ er.map Prod.fst) →
      objGet (netByCurrencyOf sr er) c = none) := by
  have hmem : c ∈ dedupFirst ((buildAmountMap sr).map Prod.fst ++
      (buildAmountMap er).map Prod.fst) ↔
      (c ∈ sr.map Prod.fst ∨ c ∈ er.map Prod.fst) := by
    rw [mem_dedupFirst, List.mem_append, mem_keys_buildAmountMap,
      mem_keys_buildAmountMap]
  constructor
  · intro hin
    unfold netByCurrencyOf
    rw [objGet_map_graph, if_pos (hmem.mpr hin),
      objGet_buildAmountMap_nodup sr hs, objGet_buildAmountMap_nodup er he]
  · intro hout
    unfold netByCurrencyOf
    rw [objGet_map_graph, if_neg (fun hmem' => hout (hmem.mp hmem'))]

theorem map_self_nodup {α : Type} (l : List α) (f : α → α)
    (hf : ∀ a ∈ l, f a = a) (h : l.Nodup) : (l.map f).Nodup := by
  have heq : l.map f = l := by
    calc l.map f = l.map id := List.map_congr_left (by simpa using hf)
    _ = l := List.map_id l
  rw [heq]
  exact h

theorem salesTotalsQ_keys_nodup (db : DB) (bid : Nat) (since : Nat) :
    ((salesTotalsQ db bid since).map (fun r => r.currency)).Nodup := by
  simp only [salesTotalsQ]
  refine List.Perm.nodup
    (List.Perm.symm (List.Perm.map (fun r : CurrencyTotalRow => r.currency)
      (List.perm_insertionSort
        (fun a b : CurrencyTotalRow => b.total_amount ≤ a.total_amount) _))) ?_
  rw [List.map_map]
  exact map_self_nodup _ _ (fun a _ => rfl) (nodup_dedupFirst _)

theorem expenseTotalsQ_keys_nodup (db : DB) (bid : Nat) (since : Nat) :
    ((expenseTotalsQ db bid since).map (fun r => r.currency)).Nodup := by
  simp only [expenseTotalsQ]
  refine List.Perm.nodup
    (List.Perm.symm (List.Perm.map (fun r : ExpenseTotalRow => r.currency)
      (List.perm_insertionSort
        (fun a b : ExpenseTotalRow => b.total_amount ≤ a.total_amount) _))) ?_
  rw [List.map_map]
  exact map_self_nodup _ _ (fun a _ => rfl) (nodup_dedupFirst _)

/-- Lookup of a currency's row in the grouped per-currency sales totals. -/
def lookupSalesTotal : List CurrencyTotalRow → String → Option ℚ
  | [], _ => none
  | r :: rows, c =>
    if r.currency = c then some r.total_amount else lookupSalesTotal rows c

/-- Lookup of a currency's row in the grouped per-currency expense totals. -/
def lookupExpenseTotal : List ExpenseTotalRow → String → Option ℚ
  | [], _ => none
  | r :: rows, c =>
    if r.currency = c then some r.total_amount else lookupExpenseTotal rows c

theorem objGet_salesPairs (rows : List CurrencyTotalRow) (c : String) :
    objGet (rows.map (fun r => (r.currency, r.total_amount))) c =
      lookupSalesTotal rows c := by
  induction rows with
  | nil => rfl
  | cons r rows ih =>
    simp only [List.map_cons, objGet, lookupSalesTotal]
    by_cases hr : r.currency = c
    · rw [if_pos hr, if_pos hr]
    · rw [if_neg hr, if_neg hr]
      exact ih

theorem objGet_expensePairs (rows : List ExpenseTotalRow) (c : String) :
    objGet (rows.map (fun r => (r.currency, r.total_amount))) c =
      lookupExpenseTotal rows c := by
  induction rows with
  | nil => rfl
  | cons r rows ih =>
    simp only [List.map_cons, objGet, lookupExpenseTotal]
    by_cases hr : r.currency = c
    · rw [if_pos hr, if_pos hr]
    · rw [if_neg hr, if_neg hr]
      exact ih

theorem netQ_lookup (srows : List CurrencyTotalRow) (erows : List ExpenseTotalRow)
    (hs : (srows.map (fun r => r.currency)).Nodup)
    (he : (erows.map (fun r => r.currency)).Nodup) (c : String) :
    ((c ∈ srows.map (fun r => r.currency) ∨ c ∈ erows.map (fun r => r.currency)) →
      objGet (netByCurrencyOf (srows.map (fun r => (r.currency, r.total_amount)))
          (erows.map (fun r => (r.currency, r.total_amount)))) c =
        some ((lookupSalesTotal srows c).getD 0 -
          (lookupExpenseTotal erows c).getD 0)) ∧
    (¬ (c ∈ srows.map (fun r => r.currency) ∨
        c ∈ erows.map (fun r => r.currency)) →
      objGet (netByCurrencyOf (srows.map (fun r => (r.currency, r.total_amount)))
          (erows.map (fun r => (r.currency, r.total_amount)))) c = none) := by
  have hks : (srows.map (fun r => (r.currency, r.total_amount))).map Prod.fst =
      srows.map (fun r => r.currency) := by
    rw [List.map_map]
    exact List.map_congr_left (fun r _ => rfl)
  have hke : (erows.map (fun r => (r.currency, r.total_amount))).map Prod.fst =
      erows.map (fun r => r.currency) := by
    rw [List.map_map]
    exact List.map_congr_left (fun r _ => rfl)
  have hcore := netByCurrencyOf_lookup
    (srows.map (fun r => (r.currency, r.total_amount)))
    (erows.map (fun r => (r.currency, r.total_amount))) c
    (by rw [hks]; exact hs) (by rw [hke]; exact he)
  constructor
  · intro hin
    have hin' : c ∈ (srows.map (fun r => (r.currency, r.total_amount))).map Prod.fst ∨
        c ∈ (erows.map (fun r => (r.currency, r.total_amount))).map Prod.fst := by
      rw [hks, hke]; exact hin
    rw [hcore.1 hin', objGet_salesPairs, objGet_expensePairs]
  · intro hout
    refine hcore.2 ?_
    rw [hks, hke]
    exact hout

/-- **C5**: in the aggregated summary, the net map is defined on exactly the
union of the currencies of the windowed sales totals and of the windowed
expense totals, and `net[c] = salesTotal[c] − expensesTotal[c]` with a
missing side read as 0 (`src/index.js` lines 382–390; `GET /admin/summary`
computes its net with the identical `netByCurrencyOf` steps, lines
970–978).  A currency absent from both lists never appears in the net map. -/
theorem netByCurrency_union_sales_minus_expenses (db : DB) (bid : Nat)
    (p : String) (now : Nat) (c : String) :
    ((c ∈ (getBusinessSummary db bid p now).totals.salesTotals.map
          (fun r => r.currency) ∨
        c ∈ (getBusinessSummary db bid p now).totals.expenseTotals.map
          (fun r => r.currency)) →
      objGet (getBusinessSummary db bid p now).totals.netByCurrency c =
        some ((lookupSalesTotal
            (getBusinessSummary db bid p now).totals.salesTotals c).getD 0 -
          (lookupExpenseTotal
            (getBusinessSummary db bid p now).totals.expenseTotals c).getD 0)) ∧
    ((c ∉ (getBusinessSummary db bid p now).totals.salesTotals.map
          (fun r => r.currency) ∧
        c ∉ (getBusinessSummary db bid p now).totals.expenseTotals.map
          (fun r => r.currency)) →
      objGet (getBusinessSummary db bid p now).totals.netByCurrency c = none) := by
  simp only [getBusinessSummary]
  have h := netQ_lookup (salesTotalsQ db bid (now - intervalDays (periodToInterval p)))
    (expenseTotalsQ db bid (now - intervalDays (periodToInterval p)))
    (salesTotalsQ_keys_nodup db bid _) (expenseTotalsQ_keys_nodup db bid _) c
  exact ⟨h.1, fun hout => h.2 (fun hmem => hmem.elim hout.1 hout.2)⟩

unseal Rat.mul Rat.inv Rat.add Rat.sub Rat.ofScientific in
theorem netByCurrency_union_witness :
    objGet (getBusinessSummary dbRevTie 1 "today" 1).totals.netByCurrency "NGN" =
        some 200 ∧
      objGet (getBusinessSummary dbRevTie 1 "today" 1).totals.netByCurrency "USD" =
        none := by
  constructor
  · have h := (netByCurrency_union_sales_minus_expenses dbRevTie 1 "today" 1 "NGN").1
      (by decide)
    rw [h]
    decide
  · exact (netByCurrency_union_sales_minus_expenses dbRevTie 1 "today" 1 "USD").2
      (by decide)

theorem snapshot_find (rows : List StockRow) (items : List String) (item : String)
    (hmem : item ∈ items ↔ ∃ e ∈ rows, e.item = item) :
    (items.filterMap (fun it =>
        (latestRow (rows.filter (fun e => e.item = it))).map
          (fun r => StockSnapRow.mk it r.quantity r.created_at))).find?
        (fun r => r.item = item) =
      (latestRow (rows.filter (fun e => e.item = item))).map
        (fun r => StockSnapRow.mk item r.quantity r.created_at) := by
  induction items with
  | nil =>
    have hnone : ¬ ∃ e ∈ rows, e.item = item := by
      intro h
      simpa using hmem.mpr h
    have hfil : rows.filter (fun e => e.item = item) = [] := by
      rw [List.filter_eq_nil_iff]
      intro e he het
      exact hnone ⟨e, he, by simpa using het⟩
    rw [hfil]
    rfl
  | cons it its ih =>
    by_cases hit : it = item
    · subst hit
      have hex : ∃ e ∈ rows, e.item = it := hmem.mp (List.mem_cons_self _ _)
      have hfil_ne : rows.filter (fun e => e.item = it) ≠ [] := by
        rcases hex with ⟨e, he, het⟩
        intro hnil
        have hmem' : e ∈ rows.filter (fun e => e.item = it) :=
          List.mem_filter.mpr ⟨he, by simpa using het⟩
        rw [hnil] at hmem'
        cases hmem'
      obtain ⟨r, hr⟩ : ∃ r, latestRow (rows.filter (fun e => e.item = it)) = some r := by
        cases hlr : latestRow (rows.filter (fun e => e.item = it)) with
        | none => exact absurd ((latestRow_eq_none_iff _).mp hlr) hfil_ne
        | some r => exact ⟨r, rfl⟩
      simp only [List.filterMap_cons, hr, Option.map_some']
      rw [List.find?_cons_of_pos _ (by simp)]
    · have hmem' : item ∈ its ↔ ∃ e ∈ rows, e.item = item := by
        constructor
        · intro h
          exact hmem.mp (List.mem_cons_of_mem _ h)
        · intro h
          rcases List.mem_cons.mp (hmem.mpr h) with h' | h'
          · exact absurd h'.symm hit
          · exact h'
      simp only [List.filterMap_cons]
      cases hlr : latestRow (rows.filter (fun e => e.item = it)) with
      | none => exact ih hmem'
      | some r =>
        simp only [Option.map_some']
        rw [List.find?_cons_of_neg _ (by simp [hit])]
        exact ih hmem'

/-- **C7**: the stock snapshot of the summary is computed over the entire
event history of the business with no period window (`src/index.js` lines
371–380): it is literally independent of the period keyword and of the
current time, and for every item it holds the quantity and timestamp of the
item's most recent StockEvent — an event of that business and item whose
timestamp is maximal over the whole history. -/
theorem stockSnapshot_period_independent (db : DB) (bid : Nat)
    (p₁ : String) (now₁ : Nat) (p₂ : String) (now₂ : Nat) (item : String) :
    ((getBusinessSummary db bid p₁ now₁).insights.stockSnapshot =
      (getBusinessSummary db bid p₂ now₂).insights.stockSnapshot) ∧
    ((getBusinessSummary db bid p₁ now₁).insights.stockSnapshot.find?
        (fun r => r.item = item) =
      (latestRow ((db.stock_events.filter
          (fun e => e.business_id = bid)).filter (fun e => e.item = item))).map
        (fun r => StockSnapRow.mk item r.quantity r.created_at)) ∧
    (∀ r, latestRow ((db.stock_events.filter
          (fun e => e.business_id = bid)).filter (fun e => e.item = item)) =
        some r →
      r ∈ db.stock_events ∧ r.business_id = bid ∧ r.item = item ∧
        ∀ e ∈ db.stock_events, e.business_id = bid → e.item = item →
          e.created_at ≤ r.created_at) := by
  refine ⟨rfl, ?_, ?_⟩
  · simp only [getBusinessSummary, stockSnapshotQ]
    apply snapshot_find
    rw [((List.perm_insertionSort _ _).mem_iff), mem_dedupFirst, List.mem_map]
  · intro r hr
    have hmem := latestRow_mem _ _ hr
    have hub := latestRow_ub _ _ hr
    rw [List.mem_filter] at hmem
    obtain ⟨hmem1, hitem⟩ := hmem
    rw [List.mem_filter] at hmem1
    obtain ⟨hmem0, hbid⟩ := hmem1
    refine ⟨hmem0, by simpa using hbid, by simpa using hitem, ?_⟩
    intro e he hebid heitem
    exact hub e (List.mem_filter.mpr
      ⟨List.mem_filter.mpr ⟨he, by simpa using hebid⟩, by simpa using heitem⟩)

theorem sm_bind_def {α β : Type} (m : SM α) (f : α → SM β) :
    m >>= f = SM.bind m f := rfl

theorem sm_pure_def {α : Type} (a : α) : (pure a : SM α) = SM.pure a := rfl

/-- Every database a run of `m` can leave behind — on success or at a
failure point — satisfies `EventBounds` when the starting database does. -/
def PreservesBounds {α : Type} (m : SM α) : Prop :=
  ∀ (or : StoreOracle) (db : DB) (k : Nat), EventBounds db →
    (match m or db k with
     | .ok (_, db', _) => EventBounds db'
     | .error (db', _) => EventBounds db')

theorem preserves_pure {α : Type} (a : α) : PreservesBounds (SM.pure a) :=
  fun _ _ _ h => h

theorem preserves_bind {α β : Type} (m : SM α) (f : α → SM β)
    (hm : PreservesBounds m) (hf : ∀ a, PreservesBounds (f a)) :
    PreservesBounds (SM.bind m f) := by
  intro or db k h
  have hm' := hm or db k h
  unfold SM.bind
  cases hmr : m or db k with
  | error e =>
    rw [hmr] at hm'
    exact hm'
  | ok v =>
    obtain ⟨a, db', k'⟩ := v
    rw [hmr] at hm'
    exact hf a or db' k' hm'

theorem preserves_query {α : Type} (f : DB → α × DB)
    (hf : ∀ db, EventBounds db → EventBounds (f db).2) :
    PreservesBounds (query f) := by
  intro or db k h
  unfold query
  by_cases hk : or k
  · simp only [if_pos hk]
    exact hf db h
  · simp only [if_neg hk]
    exact h

theorem preserves_read {α : Type} (g : DB → α) :
    PreservesBounds (query (fun db => (g db, db))) :=
  preserves_query _ (fun _ h => h)

theorem preserves_currentTime : PreservesBounds currentTime :=
  fun _ _ _ h => h

theorem preserves_ite {α : Type} (c : Prop) [Decidable c] (A B : SM α)
    (hA : PreservesBounds A) (hB : PreservesBounds B) :
    PreservesBounds (if c then A else B) := by
  by_cases hc : c
  · rwa [if_pos hc]
  · rwa [if_neg hc]

theorem eventBounds_insertSale (db : DB) (bid : Nat) (item : String)
    (q a : ℚ) (cur : String) (hq : 0 < q) (h : EventBounds db) :
    EventBounds (insertSaleDB db bid item q a cur) := by
  obtain ⟨h1, h2⟩ := h
  refine ⟨?_, ?_⟩
  · intro r hr
    rcases List.mem_append.mp hr with hr | hr
    · exact h1 r hr
    · rw [List.mem_singleton.mp hr]
      exact hq
  · exact h2

theorem eventBounds_insertExpense (db : DB) (bid : Nat) (category : String)
    (a : ℚ) (cur : String) (h : EventBounds db) :
    EventBounds (insertExpenseDB db bid category a cur) := by
  obtain ⟨h1, h2⟩ := h
  exact ⟨h1, h2⟩

theorem eventBounds_insertStock (db : DB) (bid : Nat) (item : String)
    (q : ℚ) (hq : 0 ≤ q) (h : EventBounds db) :
    EventBounds (insertStockEventDB db bid item q) := by
  obtain ⟨h1, h2⟩ := h
  refine ⟨h1, ?_⟩
  intro r hr
  rcases List.mem_append.mp hr with hr | hr
  · exact h2 r hr
  · rw [List.mem_singleton.mp hr]
    simpa using hq

theorem eventBounds_latest_nonneg (db : DB) (bid : Nat) (item : String)
    (h : EventBounds db) : 0 ≤ getLatestStockQty db bid item := by
  unfold getLatestStockQty
  cases hlr : latestRow (stockRowsFor db bid item) with
  | none => exact le_refl 0
  | some r =>
    have hr := latestRow_mem _ _ hlr
    unfold stockRowsFor at hr
    exact h.2 r (List.mem_filter.mp hr).1

theorem preserves_getOrCreate (wfrom name cur : String) :
    PreservesBounds (getOrCreateBusinessId wfrom name cur) := by
  unfold getOrCreateBusinessId
  rw [sm_bind_def]
  apply preserves_bind
  · exact preserves_read _
  · intro a
    cases a with
    | none =>
      apply preserves_query
      intro db h
      exact h
    | some b => exact preserves_pure _

theorem posQty_getD (x : Option ℚ) (h : posQty x = true) : 0 < x.getD 0 := by
  cases x with
  | none => cases h
  | some q => exact of_decide_eq_true h

theorem nonnegQty_getD (x : Option ℚ) (h : nonnegQty x = true) : 0 ≤ x.getD 0 := by
  cases x with
  | none => cases h
  | some q => exact of_decide_eq_true h

theorem preserves_summaryM (bid : Nat) (period : String) :
    PreservesBounds (getBusinessSummaryM bid period) := by
  unfold getBusinessSummaryM
  simp only [sm_bind_def]
  apply preserves_bind _ _ preserves_currentTime
  intro now
  apply preserves_bind _ _ (preserves_read _)
  intro businessInfo
  apply preserves_bind _ _ (preserves_read _)
  intro salesTotals
  apply preserves_bind _ _ (preserves_read _)
  intro expenseTotals
  apply preserves_bind _ _ (preserves_read _)
  intro topProducts
  apply preserves_bind _ _ (preserves_read _)
  intro topExpCats
  apply preserves_bind _ _ (preserves_read _)
  intro stockSnap
  exact preserves_pure _

theorem preserves_stockDelta_write (bid : Nat) (item : String)
    (mk : ℚ → Nat → String)
    (next : ℚ → ℚ) (hnext : ∀ current, 0 ≤ current → 0 ≤ next current) :
    PreservesBounds (SM.bind (getLatestStockQtyM bid item) (fun current =>
      SM.bind currentTime (fun t =>
        SM.bind (insertStockEvent bid item (next current)) (fun _ =>
          SM.pure (mk current t))))) := by
  intro or db k h
  simp only [SM.bind, getLatestStockQtyM, query, currentTime]
  by_cases hk : or k
  · simp only [if_pos hk]
    have hcur : 0 ≤ getLatestStockQty db bid item :=
      eventBounds_latest_nonneg db bid item h
    simp only [insertStockEvent, query]
    by_cases hk2 : or (k + 1)
    · simp only [if_pos hk2, SM.pure]
      exact eventBounds_insertStock db bid item _ (hnext _ hcur) h
    · simp only [if_neg hk2]
      exact h
  · simp only [if_neg hk]
    exact h

theorem preserves_dispatch (bn dc : String) (bid : Nat) (parts : List String) :
    PreservesBounds (dispatchCommand bn dc bid parts) := by
  simp only [dispatchCommand, sm_bind_def]
  apply preserves_ite _ _ _ (preserves_pure _)
  apply preserves_ite
  · exact preserves_bind _ _ (preserves_summaryM _ _) (fun s => preserves_pure _)
  apply preserves_ite
  · exact preserves_bind _ _ (preserves_summaryM _ _) (fun s => preserves_pure _)
  apply preserves_ite
  · -- sale
    by_cases hval : saleArgsInvalid parts = true
    · rw [if_pos hval]
      exact preserves_pure _
    · rw [if_neg hval]
      have hq : posQty (jsNumberOfOpt (parts.get? 2)) = true := by
        rw [Bool.not_eq_true] at hval
        simp only [saleArgsInvalid, Bool.or_eq_false_iff, Bool.not_eq_false]
          at hval
        simpa using hval.1.2
      cases hp : parseAmountAndCurrency (parts.get? 3) (parts.get? 4) dc with
      | error e => exact preserves_pure _
      | ok parsed =>
        apply preserves_bind _ _ preserves_currentTime
        intro t
        apply preserves_bind
        · apply preserves_query
          intro db h
          exact eventBounds_insertSale db bid _ _ parsed.amount parsed.currency
            (posQty_getD _ hq) h
        · intro u
          exact preserves_pure _
  apply preserves_ite
  · -- expense
    by_cases hval : expenseArgsInvalid parts = true
    · rw [if_pos hval]
      exact preserves_pure _
    · rw [if_neg hval]
      cases hp : parseAmountAndCurrency (parts.get? 2) (parts.get? 3) dc with
      | error e => exact preserves_pure _
      | ok parsed =>
        apply preserves_bind _ _ preserves_currentTime
        intro t
        apply preserves_bind
        · apply preserves_query
          intro db h
          exact eventBounds_insertExpense db bid _ parsed.amount parsed.currency h
        · intro u
          exact preserves_pure _
  apply preserves_ite
  · -- stock (set)
    by_cases hval : stockArgsInvalid parts = true
    · rw [if_pos hval]
      exact preserves_pure _
    · rw [if_neg hval]
      have hq : nonnegQty (jsNumberOfOpt (parts.get? 2)) = true := by
        rw [Bool.not_eq_true] at hval
        simp only [stockArgsInvalid, Bool.or_eq_false_iff, Bool.not_eq_false]
          at hval
        simpa using hval.2
      apply preserves_bind _ _ preserves_currentTime
      intro t
      apply preserves_bind
      · apply preserves_query
        intro db h
        exact eventBounds_insertStock db bid _ _ (nonnegQty_getD _ hq) h
      · intro u
        exact preserves_pure _
  apply preserves_ite
  · -- stockadd
    by_cases hval : stockDeltaArgsInvalid parts = true
    · rw [if_pos hval]
      exact preserves_pure _
    · rw [if_neg hval]
      have hq : posQty (jsNumberOfOpt (parts.get? 2)) = true := by
        rw [Bool.not_eq_true] at hval
        simp only [stockDeltaArgsInvalid, Bool.or_eq_false_iff,
          Bool.not_eq_false] at hval
        simpa using hval.2
      exact preserves_stockDelta_write bid _ _ _
        (fun current hc => add_nonneg hc (le_of_lt (posQty_getD _ hq)))
  apply preserves_ite
  · -- stockremove
    by_cases hval : stockDeltaArgsInvalid parts = true
    · rw [if_pos hval]
      exact preserves_pure _
    · rw [if_neg hval]
      have hq : posQty (jsNumberOfOpt (parts.get? 2)) = true := by
        rw [Bool.not_eq_true] at hval
        simp only [stockDeltaArgsInvalid, Bool.or_eq_false_iff,
          Bool.not_eq_false] at hval
        simpa using hval.2
      exact preserves_stockDelta_write bid _ _ _
        (fun current hc => le_max_left 0 _)
  exact preserves_pure _

unseal Rat.mul Rat.inv Rat.add Rat.sub Rat.ofScientific in
/-- **C4** (counterexample): validation accepts any finite quantity > 0, not
only integers — `"sale rice 2.5 -45"` passes the `sale` validation — and the
amount is only checked for finiteness, so a *negative* amount is accepted
and recorded: the resulting sale row has quantity 5/2 (not an integer) and
amount −45 < 0, contradicting both "quantity parses as a positive integer"
and "amounts are … ≥ 0". -/
theorem quantity_amount_bounds_counterexample :
    saleArgsInvalid (partsOf "sale rice 2.5 -45") = false ∧
    (twilioWhatsapp allOk "u" "sale rice 2.5 -45" DB.empty).2.sales.map
        (fun r => (r.item, r.quantity, r.amount, r.currency)) =
      [("rice", (5 : ℚ)/2, -45, "NGN")] ∧
    ((5 : ℚ)/2).den ≠ 1 ∧ (-45 : ℚ) < 0 := by decide

/-- **C4** (amended): the dispatcher validates quantities before any write
as finite numbers with `qty > 0` for `sale`/`stockadd`/`stockremove` and
`qty ≥ 0` for `stock` (integrality is not checked, and amounts are only
required to be finite — they may be negative).  Consequently the write
paths preserve the bounds that do hold of recorded events: every sale row
has quantity > 0 and every stock row a nonnegative stored level. -/
theorem recorded_event_bounds (or : StoreOracle) (sender body : String)
    (db : DB) (h : EventBounds db) :
    EventBounds (twilioWhatsapp or sender body db).2 := by
  have hcore : PreservesBounds (twilioWhatsappCore sender body) := by
    unfold twilioWhatsappCore
    apply preserves_ite _ _ _ (preserves_pure _)
    exact preserves_bind _ _ (preserves_getOrCreate _ _ _)
      (fun bid => preserves_dispatch _ _ _ _)
  have hrun := hcore or db 0 h
  unfold twilioWhatsapp
  cases hres : twilioWhatsappCore sender body or db 0 with
  | ok v =>
    obtain ⟨r, db', k'⟩ := v
    rw [hres] at hrun
    exact hrun
  | error e =>
    obtain ⟨db', k'⟩ := e
    rw [hres] at hrun
    exact hrun

unseal Rat.mul Rat.inv Rat.add Rat.sub Rat.ofScientific in
theorem recorded_event_bounds_witness :
    EventBounds (twilioWhatsapp allOk "u" "sale rice 2.5 -45" DB.empty).2 :=
  recorded_event_bounds allOk "u" "sale rice 2.5 -45" DB.empty
    (by refine ⟨?_, ?_⟩ <;> intro r hr <;> simp [DB.empty] at hr)

/-- Every reply a successful run of `m` produces is a nonempty string. -/
def ReplyNonempty (m : SM String) : Prop :=
  ∀ (or : StoreOracle) (db : DB) (k : Nat) (r : String) (db' : DB) (k' : Nat),
    m or db k = .ok (r, db', k') → r ≠ ""

theorem rn_pure (a : String) (ha : a ≠ "") : ReplyNonempty (SM.pure a) := by
  intro or db k r db' k' h
  simp only [SM.pure, Except.ok.injEq, Prod.mk.injEq] at h
  rw [← h.1]
  exact ha

theorem rn_bind {β : Type} (m : SM β) (f : β → SM String)
    (hf : ∀ a, ReplyNonempty (f a)) : ReplyNonempty (SM.bind m f) := by
  intro or db k r db' k' h
  unfold SM.bind at h
  cases hm : m or db k with
  | error e =>
    rw [hm] at h
    cases h
  | ok v =>
    obtain ⟨a, db₁, k₁⟩ := v
    rw [hm] at h
    exact hf a or db₁ k₁ r db' k' h

theorem rn_ite (c : Prop) [Decidable c] (A B : SM String)
    (hA : ReplyNonempty A) (hB : ReplyNonempty B) :
    ReplyNonempty (if c then A else B) := by
  by_cases hc : c
  · rwa [if_pos hc]
  · rwa [if_neg hc]

theorem helpText_ne_empty (bn : String) : helpText bn ≠ "" := by
  unfold helpText
  repeat apply str_append_ne_empty
  decide

theorem buildWhatsAppSummaryText_ne_empty (s : InternalSummary) (p : String) :
    buildWhatsAppSummaryText s p ≠ "" := by
  simp only [buildWhatsAppSummaryText]
  repeat apply str_append_ne_empty
  decide

theorem appendInsights_ne_empty (t : String) (s : AdminSummary) (ht : t ≠ "") :
    appendInsightsToSummaryText t s ≠ "" := by
  unfold appendInsightsToSummaryText
  by_cases he : (computeInsightsFromSummary s).isEmpty
  · simpa [he] using ht
  · simp only [he, if_false, Bool.false_eq_true]
    apply str_append_ne_empty
    apply str_append_ne_empty
    exact ht

theorem formatAdviceMessage_ne_empty (s : AdminSummary) :
    formatAdviceMessage s ≠ "" := by
  simp only [formatAdviceMessage]
  simp only [List.cons_append]
  apply joinSep_ne_empty
  apply str_append_ne_empty
  apply str_append_ne_empty
  decide

theorem saleSuccessReply_ne_empty (item : String) (q a : ℚ) (cur : String)
    (t : Nat) : saleSuccessReply item q a cur t ≠ "" := by
  unfold saleSuccessReply
  repeat apply str_append_ne_empty
  decide

theorem expenseSuccessReply_ne_empty (category : String) (a : ℚ) (cur : String)
    (t : Nat) : expenseSuccessReply category a cur t ≠ "" := by
  unfold expenseSuccessReply
  repeat apply str_append_ne_empty
  decide

theorem stockSetSuccessReply_ne_empty (item : String) (q : ℚ) (t : Nat) :
    stockSetSuccessReply item q t ≠ "" := by
  unfold stockSetSuccessReply
  repeat apply str_append_ne_empty
  decide

theorem stockAddSuccessReply_ne_empty (item : String) (d n : ℚ) (t : Nat) :
    stockAddSuccessReply item d n t ≠ "" := by
  unfold stockAddSuccessReply
  repeat apply str_append_ne_empty
  decide

theorem stockRemoveSuccessReply_ne_empty (item : String) (d n : ℚ) (t : Nat) :
    stockRemoveSuccessReply item d n t ≠ "" := by
  unfold stockRemoveSuccessReply
  repeat apply str_append_ne_empty
  decide

theorem rn_dispatch (bn dc : String) (bid : Nat) (parts : List String) :
    ReplyNonempty (dispatchCommand bn dc bid parts) := by
  simp only [dispatchCommand, sm_bind_def]
  apply rn_ite _ _ _ (rn_pure _ (helpText_ne_empty bn))
  apply rn_ite
  · refine rn_bind _ _ (fun s => rn_pure _ ?_)
    exact appendInsights_ne_empty _ _ (buildWhatsAppSummaryText_ne_empty s _)
  apply rn_ite
  · exact rn_bind _ _ (fun s => rn_pure _ (formatAdviceMessage_ne_empty _))
  apply rn_ite
  · apply rn_ite _ _ _ (rn_pure _ (by decide))
    cases hp : parseAmountAndCurrency (parts.get? 3) (parts.get? 4) dc with
    | error e =>
      apply rn_pure
      apply str_append_ne_empty
      decide
    | ok parsed =>
      refine rn_bind _ _ (fun t => rn_bind _ _ (fun u => rn_pure _ ?_))
      exact saleSuccessReply_ne_empty _ _ _ _ _
  apply rn_ite
  · apply rn_ite _ _ _ (rn_pure _ (by decide))
    cases hp : parseAmountAndCurrency (parts.get? 2) (parts.get? 3) dc with
    | error e =>
      apply rn_pure
      apply str_append_ne_empty
      decide
    | ok parsed =>
      refine rn_bind _ _ (fun t => rn_bind _ _ (fun u => rn_pure _ ?_))
      exact expenseSuccessReply_ne_empty _ _ _ _
  apply rn_ite
  · apply rn_ite _ _ _ (rn_pure _ (by decide))
    refine rn_bind _ _ (fun t => rn_bind _ _ (fun u => rn_pure _ ?_))
    exact stockSetSuccessReply_ne_empty _ _ _
  apply rn_ite
  · apply rn_ite _ _ _ (rn_pure _ (by decide))
    refine rn_bind _ _ (fun cur => rn_bind _ _ (fun t => rn_bind _ _
      (fun u => rn_pure _ ?_)))
    exact stockAddSuccessReply_ne_empty _ _ _ _
  apply rn_ite
  · apply rn_ite _ _ _ (rn_pure _ (by decide))
    refine rn_bind _ _ (fun cur => rn_bind _ _ (fun t => rn_bind _ _
      (fun u => rn_pure _ ?_)))
    exact stockRemoveSuccessReply_ne_empty _ _ _ _
  exact rn_pure _ (by decide)

theorem rn_core (sender body : String) :
    ReplyNonempty (twilioWhatsappCore sender body) := by
  unfold twilioWhatsappCore
  apply rn_ite _ _ _ (rn_pure _ (by decide))
  exact rn_bind _ _ (fun bid => rn_dispatch _ _ _ _)

theorem query_allOk {α : Type} (f : DB → α × DB) (db : DB) (k : Nat) :
    query f allOk db k = .ok ((f db).1, (f db).2, k + 1) := rfl

theorem getOrCreate_allOk_eq (wfrom bn dc : String) (db : DB) (k : Nat) :
    getOrCreateBusinessId wfrom bn dc allOk db k =
      match findBusiness db wfrom with
      | some b => .ok (b.id, db, k + 1)
      | none =>
          .ok (db.nextId,
            { db with
              businesses := db.businesses ++
                [⟨db.nextId, bn, wfrom, if dc = "" then "NGN" else dc⟩],
              nextId := db.nextId + 1 }, k + 2) := by
  simp only [getOrCreateBusinessId, sm_bind_def, SM.bind, query, allOk, SM.pure]
  cases findBusiness db wfrom with
  | some b => rfl
  | none => rfl

theorem getOrCreate_allOk (wfrom bn dc : String) (db : DB) (k : Nat) :
    ∃ (bid : Nat) (db₁ : DB) (k₁ : Nat),
      getOrCreateBusinessId wfrom bn dc allOk db k = .ok (bid, db₁, k₁) ∧
      db₁.sales = db.sales ∧ db₁.expenses = db.expenses ∧
      db₁.stock_events = db.stock_events := by
  cases hfb : findBusiness db wfrom with
  | some b =>
    exact ⟨b.id, db, k + 1, by rw [getOrCreate_allOk_eq, hfb], rfl, rfl, rfl⟩
  | none =>
    refine ⟨db.nextId,
      { db with
        businesses := db.businesses ++
          [⟨db.nextId, bn, wfrom, if dc = "" then "NGN" else dc⟩],
        nextId := db.nextId + 1 }, k + 2, ?_, rfl, rfl, rfl⟩
    rw [getOrCreate_allOk_eq, hfb]

theorem core_allOk_eval (sender body : String) (db : DB)
    (hs : sender ≠ "") (hb : jsTrim body ≠ "") :
    ∃ (bid : Nat) (db₁ : DB) (k₁ : Nat),
      twilioWhatsappCore sender body allOk db 0 =
        dispatchCommand (getOwnerProfile sender).businessName
          (getOwnerProfile sender).defaultCurrency bid (partsOf body) allOk db₁ k₁ ∧
      db₁.sales = db.sales ∧ db₁.expenses = db.expenses ∧
      db₁.stock_events = db.stock_events := by
  obtain ⟨bid, db₁, k₁, heq, h1, h2, h3⟩ :=
    getOrCreate_allOk sender (getOwnerProfile sender).businessName
      (getOwnerProfile sender).defaultCurrency db 0
  refine ⟨bid, db₁, k₁, ?_, h1, h2, h3⟩
  unfold twilioWhatsappCore
  rw [if_neg (fun h => h.elim hs hb)]
  simp only [SM.bind]
  rw [heq]

theorem dispatch_sale_invalid (bn dc : String) (bid : Nat) (parts : List String)
    (hcmd : jsToLower (parts.headD "") = "sale")
    (hinv : saleArgsInvalid parts = true) (or : StoreOracle) (db : DB) (k : Nat) :
    dispatchCommand bn dc bid parts or db k = .ok (SALE_USAGE, db, k) := by
  simp only [dispatchCommand, hcmd, hinv, if_true]
  rfl

theorem dispatch_expense_invalid (bn dc : String) (bid : Nat) (parts : List String)
    (hcmd : jsToLower (parts.headD "") = "expense")
    (hinv : expenseArgsInvalid parts = true) (or : StoreOracle) (db : DB) (k : Nat) :
    dispatchCommand bn dc bid parts or db k = .ok (EXPENSE_USAGE, db, k) := by
  simp only [dispatchCommand, hcmd, hinv, if_true]
  rfl

theorem dispatch_stock_invalid (bn dc : String) (bid : Nat) (parts : List String)
    (hcmd : jsToLower (parts.headD "") = "stock")
    (hinv : stockArgsInvalid parts = true) (or : StoreOracle) (db : DB) (k : Nat) :
    dispatchCommand bn dc bid parts or db k = .ok (STOCK_USAGE, db, k) := by
  simp only [dispatchCommand, hcmd, hinv, if_true]
  rfl

theorem dispatch_stockadd_invalid (bn dc : String) (bid : Nat) (parts : List String)
    (hcmd : jsToLower (parts.headD "") = "stockadd")
    (hinv : stockDeltaArgsInvalid parts = true) (or : StoreOracle) (db : DB) (k : Nat) :
    dispatchCommand bn dc bid parts or db k = .ok (STOCKADD_USAGE, db, k) := by
  simp only [dispatchCommand, hcmd, hinv, if_true]
  rfl

theorem dispatch_stockremove_invalid (bn dc : String) (bid : Nat) (parts : List String)
    (hcmd : jsToLower (parts.headD "") = "stockremove")
    (hinv : stockDeltaArgsInvalid parts = true) (or : StoreOracle) (db : DB) (k : Nat) :
    dispatchCommand bn dc bid parts or db k = .ok (STOCKREMOVE_USAGE, db, k) := by
  simp only [dispatchCommand, hcmd, hinv, if_true]
  rfl

theorem dispatch_sale_parsefail (bn dc : String) (bid : Nat) (parts : List String)
    (e : String) (hcmd : jsToLower (parts.headD "") = "sale")
    (hval : saleArgsInvalid parts = false)
    (hp : parseAmountAndCurrency (parts.get? 3) (parts.get? 4) dc = .error e)
    (or : StoreOracle) (db : DB) (k : Nat) :
    dispatchCommand bn dc bid parts or db k =
      .ok ("Sale not recorded: " ++ e, db, k) := by
  simp only [dispatchCommand, hcmd, hval, if_true, if_false]
  rw [hp]
  rfl

theorem dispatch_expense_parsefail (bn dc : String) (bid : Nat) (parts : List String)
    (e : String) (hcmd : jsToLower (parts.headD "") = "expense")
    (hval : expenseArgsInvalid parts = false)
    (hp : parseAmountAndCurrency (parts.get? 2) (parts.get? 3) dc = .error e)
    (or : StoreOracle) (db : DB) (k : Nat) :
    dispatchCommand bn dc bid parts or db k =
      .ok ("Expense not recorded: " ++ e, db, k) := by
  simp only [dispatchCommand, hcmd, hval, if_true, if_false]
  rw [hp]
  rfl

theorem dispatch_unknown_eval (bn dc : String) (bid : Nat) (parts : List String)
    (h : ∀ s ∈ (["help", "summary", "advice", "sale", "expense", "stock",
        "stockadd", "stockremove"] : List String), jsToLower (parts.headD "") ≠ s)
    (or : StoreOracle) (db : DB) (k : Nat) :
    dispatchCommand bn dc bid parts or db k = .ok (UNKNOWN_REPLY, db, k) := by
  simp only [dispatchCommand]
  rw [if_neg (h "help" (by decide)), if_neg (h "summary" (by decide)),
      if_neg (h "advice" (by decide)), if_neg (h "sale" (by decide)),
      if_neg (h "expense" (by decide)), if_neg (h "stock" (by decide)),
      if_neg (h "stockadd" (by decide)), if_neg (h "stockremove" (by decide))]
  rfl

theorem twa_finish (sender body : String) (db db₁ : DB) (k₁ : Nat)
    (reply : String) (bid : Nat)
    (heq : twilioWhatsappCore sender body allOk db 0 =
      dispatchCommand (getOwnerProfile sender).businessName
        (getOwnerProfile sender).defaultCurrency bid (partsOf body) allOk db₁ k₁)
    (hd : dispatchCommand (getOwnerProfile sender).businessName
        (getOwnerProfile sender).defaultCurrency bid (partsOf body) allOk db₁ k₁ =
      .ok (reply, db₁, k₁))
    (h1 : db₁.sales = db.sales) (h2 : db₁.expenses = db.expenses)
    (h3 : db₁.stock_events = db.stock_events) :
    (twilioWhatsapp allOk sender body db).1 = reply ∧
    eventsOf (twilioWhatsapp allOk sender body db).2 = eventsOf db := by
  unfold twilioWhatsapp
  rw [heq, hd]
  exact ⟨rfl, by unfold eventsOf; rw [h1, h2, h3]⟩

/-- **C1**: the dispatch boundary always replies, and its error taxonomy is as
specified: every run — any storage-fault oracle, any sender, any body, any
database — yields a nonempty reply string (no silent drops); a storage failure
yields the generic apology; and with working storage, for a nonempty
sender/body: a validation failure of any of the five data commands yields that
command's usage message and writes no sale/expense/stock event; an unparseable
amount/currency yields the command-specific rejection reply with the parser's
message and writes no event; and an unknown command yields the example-listing
help-hint reply and writes no event. -/
theorem dispatch_total_with_error_replies (sender body : String) (db : DB) :
    (∀ or : StoreOracle, (twilioWhatsapp or sender body db).1 ≠ "") ∧
    (∀ (or : StoreOracle) (db' : DB) (k : Nat),
      twilioWhatsappCore sender body or db 0 = .error (db', k) →
      twilioWhatsapp or sender body db = (APOLOGY_REPLY, db')) ∧
    (sender ≠ "" → jsTrim body ≠ "" →
      ((cmdOf body = "sale" → saleArgsInvalid (partsOf body) = true →
        (twilioWhatsapp allOk sender body db).1 = SALE_USAGE ∧
        eventsOf (twilioWhatsapp allOk sender body db).2 = eventsOf db) ∧
       (cmdOf body = "expense" → expenseArgsInvalid (partsOf body) = true →
        (twilioWhatsapp allOk sender body db).1 = EXPENSE_USAGE ∧
        eventsOf (twilioWhatsapp allOk sender body db).2 = eventsOf db) ∧
       (cmdOf body = "stock" → stockArgsInvalid (partsOf body) = true →
        (twilioWhatsapp allOk sender body db).1 = STOCK_USAGE ∧
        eventsOf (twilioWhatsapp allOk sender body db).2 = eventsOf db) ∧
       (cmdOf body = "stockadd" → stockDeltaArgsInvalid (partsOf body) = true →
        (twilioWhatsapp allOk sender body db).1 = STOCKADD_USAGE ∧
        eventsOf (twilioWhatsapp allOk sender body db).2 = eventsOf db) ∧
       (cmdOf body = "stockremove" → stockDeltaArgsInvalid (partsOf body) = true →
        (twilioWhatsapp allOk sender body db).1 = STOCKREMOVE_USAGE ∧
        eventsOf (twilioWhatsapp allOk sender body db).2 = eventsOf db) ∧
       (∀ e : String, cmdOf body = "sale" →
        saleArgsInvalid (partsOf body) = false →
        parseAmountAndCurrency ((partsOf body).get? 3) ((partsOf body).get? 4)
            (getOwnerProfile sender).defaultCurrency = .error e →
        (twilioWhatsapp allOk sender body db).1 = "Sale not recorded: " ++ e ∧
        eventsOf (twilioWhatsapp allOk sender body db).2 = eventsOf db) ∧
       (∀ e : String, cmdOf body = "expense" →
        expenseArgsInvalid (partsOf body) = false →
        parseAmountAndCurrency ((partsOf body).get? 2) ((partsOf body).get? 3)
            (getOwnerProfile sender).defaultCurrency = .error e →
        (twilioWhatsapp allOk sender body db).1 = "Expense not recorded: " ++ e ∧
        eventsOf (twilioWhatsapp allOk sender body db).2 = eventsOf db) ∧
       (cmdOf body ∉ (["help", "summary", "advice", "sale", "expense", "stock",
          "stockadd", "stockremove"] : List String) →
        (twilioWhatsapp allOk sender body db).1 = UNKNOWN_REPLY ∧
        eventsOf (twilioWhatsapp allOk sender body db).2 = eventsOf db))) := by
  refine ⟨?_, ?_, ?_⟩
  · intro or
    unfold twilioWhatsapp
    cases hres : twilioWhatsappCore sender body or db 0 with
    | ok v =>
      obtain ⟨r, db', k'⟩ := v
      exact rn_core sender body or db 0 r db' k' hres
    | error e =>
      obtain ⟨db', k'⟩ := e
      exact (by decide : APOLOGY_REPLY ≠ "")
  · intro or db' k hcore
    unfold twilioWhatsapp
    rw [hcore]
  · intro hs hb
    obtain ⟨bid, db₁, k₁, heq, h1, h2, h3⟩ := core_allOk_eval sender body db hs hb
    refine ⟨?_, ?_, ?_, ?_, ?_, ?_, ?_, ?_⟩
    · intro hcmd hinv
      exact twa_finish sender body db db₁ k₁ _ bid heq
        (dispatch_sale_invalid _ _ bid (partsOf body) hcmd hinv allOk db₁ k₁)
        h1 h2 h3
    · intro hcmd hinv
      exact twa_finish sender body db db₁ k₁ _ bid heq
        (dispatch_expense_invalid _ _ bid (partsOf body) hcmd hinv allOk db₁ k₁)
        h1 h2 h3
    · intro hcmd hinv
      exact twa_finish sender body db db₁ k₁ _ bid heq
        (dispatch_stock_invalid _ _ bid (partsOf body) hcmd hinv allOk db₁ k₁)
        h1 h2 h3
    · intro hcmd hinv
      exact twa_finish sender body db db₁ k₁ _ bid heq
        (dispatch_stockadd_invalid _ _ bid (partsOf body) hcmd hinv allOk db₁ k₁)
        h1 h2 h3
    · intro hcmd hinv
      exact twa_finish sender body db db₁ k₁ _ bid heq
        (dispatch_stockremove_invalid _ _ bid (partsOf body) hcmd hinv allOk db₁ k₁)
        h1 h2 h3
    · intro e hcmd hval hp
      exact twa_finish sender body db db₁ k₁ _ bid heq
        (dispatch_sale_parsefail _ _ bid (partsOf body) e hcmd hval hp allOk db₁ k₁)
        h1 h2 h3
    · intro e hcmd hval hp
      exact twa_finish sender body db db₁ k₁ _ bid heq
        (dispatch_expense_parsefail _ _ bid (partsOf body) e hcmd hval hp allOk db₁ k₁)
        h1 h2 h3
    · intro hmem
      refine twa_finish sender body db db₁ k₁ _ bid heq
        (dispatch_unknown_eval _ _ bid (partsOf body) ?_ allOk db₁ k₁) h1 h2 h3
      intro s hsl hceq
      exact hmem (by rw [show cmdOf body = s from hceq]; exact hsl)
